import Mathlib

set_option maxRecDepth 8000

namespace Retention

/-! Shallow embedding of the Retention-Agent analysis pipeline.

Python values that can result from json.loads are modelled by the
inductive type Json below.  Numbers are kept as their source lexeme
so that no floating-point reasoning is needed; objects are
insertion-ordered key/value lists with last-wins overwrite, mirroring
the construction of a Python dict. -/

inductive Json where
  | null : Json
  | bool : Bool → Json
  | num : String → Json
  | str : String → Json
  | arr : List Json → Json
  | obj : List (String × Json) → Json
  deriving Repr

mutual

/-- Decidable equality on Json values. -/
def Json.decEq : (a b : Json) → Decidable (a = b)
  | .null, .null => isTrue rfl
  | .bool a, .bool b =>
    if h : a = b then isTrue (by rw [h]) else isFalse (by simp [h])
  | .num a, .num b =>
    if h : a = b then isTrue (by rw [h]) else isFalse (by simp [h])
  | .str a, .str b =>
    if h : a = b then isTrue (by rw [h]) else isFalse (by simp [h])
  | .arr xs, .arr ys =>
    match Json.decEqList xs ys with
    | isTrue h => isTrue (by rw [h])
    | isFalse h => isFalse (by simp [h])
  | .obj xs, .obj ys =>
    match Json.decEqKV xs ys with
    | isTrue h => isTrue (by rw [h])
    | isFalse h => isFalse (by simp [h])
  | .null, .bool _ => isFalse (fun h => Json.noConfusion h)
  | .null, .num _ => isFalse (fun h => Json.noConfusion h)
  | .null, .str _ => isFalse (fun h => Json.noConfusion h)
  | .null, .arr _ => isFalse (fun h => Json.noConfusion h)
  | .null, .obj _ => isFalse (fun h => Json.noConfusion h)
  | .bool _, .null => isFalse (fun h => Json.noConfusion h)
  | .bool _, .num _ => isFalse (fun h => Json.noConfusion h)
  | .bool _, .str _ => isFalse (fun h => Json.noConfusion h)
  | .bool _, .arr _ => isFalse (fun h => Json.noConfusion h)
  | .bool _, .obj _ => isFalse (fun h => Json.noConfusion h)
  | .num _, .null => isFalse (fun h => Json.noConfusion h)
  | .num _, .bool _ => isFalse (fun h => Json.noConfusion h)
  | .num _, .str _ => isFalse (fun h => Json.noConfusion h)
  | .num _, .arr _ => isFalse (fun h => Json.noConfusion h)
  | .num _, .obj _ => isFalse (fun h => Json.noConfusion h)
  | .str _, .null => isFalse (fun h => Json.noConfusion h)
  | .str _, .bool _ => isFalse (fun h => Json.noConfusion h)
  | .str _, .num _ => isFalse (fun h => Json.noConfusion h)
  | .str _, .arr _ => isFalse (fun h => Json.noConfusion h)
  | .str _, .obj _ => isFalse (fun h => Json.noConfusion h)
  | .arr _, .null => isFalse (fun h => Json.noConfusion h)
  | .arr _, .bool _ => isFalse (fun h => Json.noConfusion h)
  | .arr _, .num _ => isFalse (fun h => Json.noConfusion h)
  | .arr _, .str _ => isFalse (fun h => Json.noConfusion h)
  | .arr _, .obj _ => isFalse (fun h => Json.noConfusion h)
  | .obj _, .null => isFalse (fun h => Json.noConfusion h)
  | .obj _, .bool _ => isFalse (fun h => Json.noConfusion h)
  | .obj _, .num _ => isFalse (fun h => Json.noConfusion h)
  | .obj _, .str _ => isFalse (fun h => Json.noConfusion h)
  | .obj _, .arr _ => isFalse (fun h => Json.noConfusion h)

/-- Decidable equality on lists of Json values. -/
def Json.decEqList : (xs ys : List Json) → Decidable (xs = ys)
  | [], [] => isTrue rfl
  | [], _ :: _ => isFalse (fun h => List.noConfusion h)
  | _ :: _, [] => isFalse (fun h => List.noConfusion h)
  | x :: xs, y :: ys =>
    match Json.decEq x y with
    | isFalse h => isFalse (by simp [h])
    | isTrue h1 =>
      match Json.decEqList xs ys with
      | isTrue h2 => isTrue (by rw [h1, h2])
      | isFalse h2 => isFalse (by simp [h2])

/-- Decidable equality on Json key/value lists. -/
def Json.decEqKV : (xs ys : List (String × Json)) → Decidable (xs = ys)
  | [], [] => isTrue rfl
  | [], _ :: _ => isFalse (fun h => List.noConfusion h)
  | _ :: _, [] => isFalse (fun h => List.noConfusion h)
  | (k1, v1) :: xs, (k2, v2) :: ys =>
    if hk : k1 = k2 then
      match Json.decEq v1 v2 with
      | isFalse h => isFalse (by simp [h])
      | isTrue h1 =>
        match Json.decEqKV xs ys with
        | isTrue h2 => isTrue (by rw [hk, h1, h2])
        | isFalse h2 => isFalse (by simp [h2])
    else isFalse (by simp [hk])

end

instance : DecidableEq Json := Json.decEq

/-- JSON whitespace accepted by Python json.loads between tokens. -/
def jsonWs (c : Char) : Bool := c = ' ' || c = '\t' || c = '\n' || c = '\r'

/-- Drop leading JSON whitespace. -/
def skipWs : List Char → List Char
  | [] => []
  | c :: cs => if jsonWs c then skipWs cs else c :: cs

/-- Value of a hexadecimal digit. -/
def hexVal (c : Char) : Option Nat :=
  if '0' ≤ c ∧ c ≤ '9' then some (c.toNat - '0'.toNat)
  else if 'a' ≤ c ∧ c ≤ 'f' then some (c.toNat - 'a'.toNat + 10)
  else if 'A' ≤ c ∧ c ≤ 'F' then some (c.toNat - 'A'.toNat + 10)
  else none

/-- Decode the body of a JSON string literal, the opening quote already
consumed; returns the decoded characters and the rest of the input. -/
def parseJStr : List Char → Option (List Char × List Char)
  | [] => none
  | '"' :: rest => some ([], rest)
  | '\\' :: 'u' :: a :: b :: c :: d :: rest => do
      let va ← hexVal a
      let vb ← hexVal b
      let vc ← hexVal c
      let vd ← hexVal d
      let n := ((va * 16 + vb) * 16 + vc) * 16 + vd
      let (s, r) ← parseJStr rest
      pure (Char.ofNat n :: s, r)
  | '\\' :: e :: rest => do
      let c ← match e with
        | '"' => some '"'
        | '\\' => some '\\'
        | '/' => some '/'
        | 'b' => some (Char.ofNat 8)
        | 'f' => some (Char.ofNat 12)
        | 'n' => some '\n'
        | 'r' => some '\r'
        | 't' => some '\t'
        | _ => none
      let (s, r) ← parseJStr rest
      pure (c :: s, r)
  | c :: rest =>
      if c.toNat < 32 then none
      else do
        let (s, r) ← parseJStr rest
        pure (c :: s, r)

/-- Leading run of decimal digits. -/
def takeDigits (cs : List Char) : List Char × List Char :=
  (cs.takeWhile Char.isDigit, cs.dropWhile Char.isDigit)

/-- Lexeme of a JSON number starting at the head of the input, following
the strict grammar used by Python json.loads. -/
def parseNumLex (cs : List Char) : Option (List Char × List Char) :=
  let (sign, cs1) :=
    match cs with
    | '-' :: r => (['-'], r)
    | _ => ([], cs)
  match cs1 with
  | [] => none
  | c :: _ =>
    if ¬ c.isDigit then none
    else
      let (intPart, cs2) :=
        match cs1 with
        | '0' :: r => (['0'], r)
        | _ => takeDigits cs1
      let (fracPart, cs3) :=
        match cs2 with
        | '.' :: r =>
          let (ds, r2) := takeDigits r
          if ds = [] then (([] : List Char), cs2) else ('.' :: ds, r2)
        | _ => ([], cs2)
      let (expPart, cs4) :=
        match cs3 with
        | e :: r =>
          if e = 'e' ∨ e = 'E' then
            let (sg, r1) :=
              match r with
              | '+' :: r2 => ((['+'] : List Char), r2)
              | '-' :: r2 => (['-'], r2)
              | _ => ([], r)
            let (ds, r2) := takeDigits r1
            if ds = [] then (([] : List Char), cs3) else (e :: (sg ++ ds), r2)
          else ([], cs3)
        | [] => ([], cs3)
      some (sign ++ intPart ++ fracPart ++ expPart, cs4)

/-- Insert a key into a Python-dict style association list: an existing
key is overwritten in place, a new key is appended. -/
def dictInsert (kvs : List (String × Json)) (k : String) (v : Json) :
    List (String × Json) :=
  if kvs.any (fun p => p.1 = k) then
    kvs.map (fun p => if p.1 = k then (k, v) else p)
  else kvs ++ [(k, v)]

mutual

/-- One JSON value, fuel-indexed recursive descent mirroring json.loads. -/
def parseVal : Nat → List Char → Option (Json × List Char)
  | 0, _ => none
  | fuel + 1, cs =>
    match skipWs cs with
    | [] => none
    | '{' :: rest => parseObjBody fuel (skipWs rest) []
    | '[' :: rest => parseArrBody fuel (skipWs rest)
    | '"' :: rest => do
        let (s, r) ← parseJStr rest
        pure (Json.str (String.mk s), r)
    | 't' :: 'r' :: 'u' :: 'e' :: rest => some (Json.bool true, rest)
    | 'f' :: 'a' :: 'l' :: 's' :: 'e' :: rest => some (Json.bool false, rest)
    | 'n' :: 'u' :: 'l' :: 'l' :: rest => some (Json.null, rest)
    | 'N' :: 'a' :: 'N' :: rest => some (Json.num "NaN", rest)
    | 'I' :: 'n' :: 'f' :: 'i' :: 'n' :: 'i' :: 't' :: 'y' :: rest =>
        some (Json.num "Infinity", rest)
    | '-' :: 'I' :: 'n' :: 'f' :: 'i' :: 'n' :: 'i' :: 't' :: 'y' :: rest =>
        some (Json.num "-Infinity", rest)
    | cs' => do
        let (lex, r) ← parseNumLex cs'
        pure (Json.num (String.mk lex), r)

/-- Body of a JSON array, the opening bracket and leading whitespace
already consumed. -/
def parseArrBody : Nat → List Char → Option (Json × List Char)
  | 0, _ => none
  | fuel + 1, cs =>
    match cs with
    | ']' :: rest => some (Json.arr [], rest)
    | _ => do
        let (v, r) ← parseVal fuel cs
        parseArrRest fuel r [v]

/-- Remaining elements of a JSON array after at least one element. -/
def parseArrRest : Nat → List Char → List Json → Option (Json × List Char)
  | 0, _, _ => none
  | fuel + 1, cs, acc =>
    match skipWs cs with
    | ']' :: rest => some (Json.arr acc, rest)
    | ',' :: rest => do
        let (v, r) ← parseVal fuel rest
        parseArrRest fuel r (acc ++ [v])
    | _ => none

/-- Body of a JSON object, the opening brace and leading whitespace
already consumed. -/
def parseObjBody (fuel : Nat) (cs : List Char)
    (acc : List (String × Json)) : Option (Json × List Char) :=
  match fuel, cs with
  | 0, _ => none
  | _ + 1, '}' :: rest =>
      match acc with
      | [] => some (Json.obj [], rest)
      | _ => none
  | fuel + 1, '"' :: rest => do
      let (k, r) ← parseJStr rest
      match skipWs r with
      | ':' :: r2 => do
          let (v, r3) ← parseVal fuel r2
          parseObjRest fuel r3 (dictInsert acc (String.mk k) v)
      | _ => none
  | _ + 1, _ => none

/-- Remaining members of a JSON object after at least one member. -/
def parseObjRest : Nat → List Char → List (String × Json) →
    Option (Json × List Char)
  | 0, _, _ => none
  | fuel + 1, cs, acc =>
    match skipWs cs with
    | '}' :: rest => some (Json.obj acc, rest)
    | ',' :: rest =>
        match skipWs rest with
        | '"' :: r => do
            let (k, r1) ← parseJStr r
            match skipWs r1 with
            | ':' :: r2 => do
                let (v, r3) ← parseVal fuel r2
                parseObjRest fuel r3 (dictInsert acc (String.mk k) v)
            | _ => none
        | _ => none
    | _ => none

end

/-- Embedding of Python json.loads on a character list: parse one value
and require only whitespace to remain; none models JSONDecodeError. -/
def jsonLoadsChars (cs : List Char) : Option Json :=
  match parseVal (cs.length + 1) cs with
  | some (v, rest) => if skipWs rest = [] then some v else none
  | none => none

/-- json.loads on a String. -/
def jsonLoads (s : String) : Option Json := jsonLoadsChars s.data

/-! Embedding of parse_llm_response from src/agents/analysis_agent.py. -/

/-- Whitespace stripped by Python str.strip and matched by the regex
class backslash-s (ASCII range). -/
def pyWs (c : Char) : Bool :=
  c = ' ' || c = '\t' || c = '\n' || c = '\r' || c = '\x0b' || c = '\x0c'

/-- Python str.strip. -/
def pyStrip (cs : List Char) : List Char :=
  ((cs.dropWhile pyWs).reverse.dropWhile pyWs).reverse

theorem dropWhileLen (p : Char → Bool) :
    ∀ l : List Char, (l.dropWhile p).length ≤ l.length
  | [] => by simp [List.dropWhile]
  | c :: cs => by
    simp only [List.dropWhile]
    split
    · exact Nat.le_trans (dropWhileLen p cs) (Nat.le_succ _)
    · exact Nat.le_refl _

/-- Markdown code-fence stripping of parse_llm_response: strip, drop a
leading triple-backtick-json or triple-backtick, drop a trailing
triple-backtick, strip again. -/
def stripFences (cs : List Char) : List Char :=
  let c1 := pyStrip cs
  let c2 :=
    if c1.take 7 = "```json".data then c1.drop 7
    else if c1.take 3 = "```".data then c1.drop 3
    else c1
  let c3 :=
    if 3 ≤ c2.length ∧ c2.drop (c2.length - 3) = "```".data then
      c2.take (c2.length - 3)
    else c2
  pyStrip c3

/-- Index of the first occurrence of a character, Python str.find. -/
def firstIdxOf (c : Char) : List Char → Option Nat
  | [] => none
  | x :: xs => if x = c then some 0 else (firstIdxOf c xs).map (fun n => n + 1)

/-- Index of the last occurrence of a character, Python str.rfind. -/
def lastIdxOf (c : Char) (cs : List Char) : Option Nat :=
  (firstIdxOf c cs.reverse).map (fun n => cs.length - 1 - n)

/-- The span clean_result[start_idx:end_idx] from the first opening
bracket to the last closing bracket, provided start_idx is not -1 and
end_idx exceeds start_idx, as in parse_llm_response. -/
def spanOf (cs : List Char) : Option (List Char) :=
  match firstIdxOf '[' cs, lastIdxOf ']' cs with
  | some i, some j =>
    if i < j + 1 then some ((cs.drop i).take (j + 1 - i)) else none
  | some _, none => none
  | none, _ => none

/-- Fuel-indexed single left-to-right pass of re.sub of comma, optional
whitespace, then the given closing character, replaced by that closing
character. -/
def subCommaCloseF (close : Char) : Nat → List Char → List Char
  | _, [] => []
  | 0, cs => cs
  | fuel + 1, c :: rest =>
    if c = ',' then
      match rest.dropWhile pyWs with
      | d :: r' =>
        if d = close then close :: subCommaCloseF close fuel r'
        else ',' :: subCommaCloseF close fuel rest
      | [] => ',' :: subCommaCloseF close fuel rest
    else c :: subCommaCloseF close fuel rest

/-- re.sub of comma, optional whitespace, then the given closing
character, replaced by that closing character. -/
def subCommaClose (close : Char) (cs : List Char) : List Char :=
  subCommaCloseF close cs.length cs

/-- Fuel-indexed pass of re.sub of closing brace, optional whitespace,
opening brace, replaced by closing brace, comma, opening brace. -/
def subBraceCommaF : Nat → List Char → List Char
  | _, [] => []
  | 0, cs => cs
  | fuel + 1, c :: rest =>
    if c = '}' then
      match rest.dropWhile pyWs with
      | d :: r' =>
        if d = '{' then '}' :: ',' :: '{' :: subBraceCommaF fuel r'
        else '}' :: subBraceCommaF fuel rest
      | [] => '}' :: subBraceCommaF fuel rest
    else c :: subBraceCommaF fuel rest

/-- re.sub of closing brace, optional whitespace, opening brace,
replaced by closing brace, comma, opening brace. -/
def subBraceComma (cs : List Char) : List Char :=
  subBraceCommaF cs.length cs

/-- Character class of the group in the quote-repair regex: a-z or
underscore, case-insensitive. -/
def isAzUnd (c : Char) : Bool :=
  ('a' ≤ c && c ≤ 'z') || ('A' ≤ c && c ≤ 'Z') || c = '_'

/-- Fuel-indexed pass of re.sub (IGNORECASE) of quote, whitespace
containing a newline, quote, then a letter or underscore, replaced by
quote, comma, newline, quote, then that same letter. -/
def subStrCommaF : Nat → List Char → List Char
  | _, [] => []
  | 0, cs => cs
  | fuel + 1, c :: rest =>
    if c = '"' then
      match rest.dropWhile pyWs with
      | '"' :: l :: r' =>
        if (rest.takeWhile pyWs).contains '\n' && isAzUnd l then
          '"' :: ',' :: '\n' :: '"' :: l :: subStrCommaF fuel r'
        else '"' :: subStrCommaF fuel rest
      | _ => '"' :: subStrCommaF fuel rest
    else c :: subStrCommaF fuel rest

/-- re.sub (IGNORECASE) of quote, whitespace containing a newline,
quote, then a letter or underscore, replaced by quote, comma, newline,
quote, then that same letter. -/
def subStrComma (cs : List Char) : List Char :=
  subStrCommaF cs.length cs

/-- The fixed State-B repair sequence of parse_llm_response, in source
order: trailing commas before closing brackets, trailing commas before
closing braces, missing commas between adjacent braces, missing commas
between adjacent quoted strings. -/
def repairB (cs : List Char) : List Char :=
  subStrComma (subBraceComma (subCommaClose '}' (subCommaClose ']' cs)))

/-- The per-object repair of the salvage loop, in source order:
trailing commas before closing braces, then before closing brackets. -/
def objFix (cs : List Char) : List Char :=
  subCommaClose ']' (subCommaClose '}' cs)

/-- A character that is neither an opening nor a closing brace. -/
def notBrace (c : Char) : Bool := c ≠ '{' && c ≠ '}'

/-- Continuation of the balanced-brace object regex after the initial
opening brace: non-braces, then any number of depth-one groups each
followed by non-braces, then the closing brace.  Returns the matched
characters including the final closing brace, and the rest. -/
def braceTail : Nat → List Char → Option (List Char × List Char)
  | 0, _ => none
  | fuel + 1, cs =>
    let a := cs.takeWhile notBrace
    match cs.dropWhile notBrace with
    | '}' :: rest => some (a ++ ['}'], rest)
    | '{' :: rest =>
      let b := rest.takeWhile notBrace
      match rest.dropWhile notBrace with
      | '}' :: rest2 => do
        let (m, rem) ← braceTail fuel rest2
        pure (a ++ '{' :: (b ++ '}' :: m), rem)
      | _ => none
    | _ => none

/-- re.findall of the balanced-brace object pattern: left-to-right
scan yielding non-overlapping leftmost matches. -/
def braceMatches : Nat → List Char → List (List Char)
  | 0, _ => []
  | fuel + 1, cs =>
    match cs with
    | [] => []
    | '{' :: rest =>
      match braceTail (rest.length + 1) rest with
      | some (m, rem) => ('{' :: m) :: braceMatches fuel rem
      | none => braceMatches fuel rest
    | _ :: rest => braceMatches fuel rest

/-- Body of the State-C salvage loop: repair and parse one candidate
match, and keep it only when it is a dictionary containing a
client_name key. -/
def salvageStep (m : List Char) : Option Json :=
  match jsonLoadsChars (objFix m) with
  | some (Json.obj kvs) =>
    if kvs.any (fun p => p.1 = "client_name") then some (Json.obj kvs)
    else none
  | _ => none

/-- The State-C salvage loop of parse_llm_response: scan the raw span
with the balanced-brace pattern, repair and parse each candidate
independently, and keep the parses that are dictionaries containing a
client_name key. -/
def salvageObjects (cs : List Char) : List Json :=
  (braceMatches cs.length cs).filterMap salvageStep

/-- Embedding of parse_llm_response.  The first component is the value
returned (a Python list is an arr, and the terminal failure returns the
empty list); the second component is true exactly when the except
handler ran, i.e. when the raw response is persisted to the debug
artifact before returning the empty list. -/
def parse_llm_response (result : String) : Json × Bool :=
  let clean := stripFences result.data
  let viaWhole : Json × Bool :=
    match jsonLoadsChars clean with
    | some v => (v, false)
    | none => (Json.arr [], true)
  match spanOf clean with
  | none => viaWhole
  | some span =>
    match jsonLoadsChars span with
    | some v => (v, false)
    | none =>
      match jsonLoadsChars (repairB span) with
      | some v => (v, false)
      | none =>
        match salvageObjects span with
        | [] => viaWhole
        | o :: objs => (Json.arr (o :: objs), false)

/-! Embedding of the post-oracle part of analysis_agent.  The oracle
round-trip itself is an external collaborator, so the agent is modelled
as a function of the raw response text it returns. -/

/-- Python exceptions that the embedded fragments can raise. -/
inductive PyErr where
  | attributeError : PyErr
  | typeError : PyErr
  | keyError : PyErr
  | indexError : PyErr
  deriving DecidableEq, Repr

/-- Python truthiness of a number given its JSON lexeme: zero is falsy,
everything else (including NaN and the infinities) is truthy. -/
def numTruthy (s : String) : Bool :=
  (s.data.takeWhile (fun c => c ≠ 'e' && c ≠ 'E')).any
    (fun c => (c.isDigit && c ≠ '0') || c.isAlpha)

/-- Python truthiness of a json.loads value. -/
def pyTruthy : Json → Bool
  | .null => false
  | .bool b => b
  | .num s => numTruthy s
  | .str s => ¬ s.isEmpty
  | .arr xs => ¬ xs.isEmpty
  | .obj kvs => ¬ kvs.isEmpty

/-- Python iteration over a value, as in a for-loop or comprehension:
lists yield their elements, strings their characters, dicts their keys;
anything else raises TypeError. -/
def pyIter : Json → Except PyErr (List Json)
  | .arr xs => .ok xs
  | .str s => .ok (s.data.map (fun c => Json.str (String.mk [c])))
  | .obj kvs => .ok (kvs.map (fun p => Json.str p.1))
  | _ => .error .typeError

/-- Python value.get(key, default): dict lookup with a default;
anything that is not a dict raises AttributeError. -/
def pyGetMethod (v : Json) (k : String) (dflt : Json) : Except PyErr Json :=
  match v with
  | .obj kvs =>
    match kvs.find? (fun p => p.1 = k) with
    | some p => .ok p.2
    | none => .ok dflt
  | _ => .error .attributeError

/-- ASCII lowercasing, Python str.lower on the strings that occur here. -/
def lowerStr (s : String) : String := String.mk (s.data.map Char.toLower)

/-- Python value.lower(): defined on strings only. -/
def pyLower (v : Json) : Except PyErr String :=
  match v with
  | .str s => .ok (lowerStr s)
  | _ => .error .attributeError

/-- The risky-clients list comprehension of analysis_agent: keep the
clients whose risk_factor, defaulted to the empty string and lowercased,
is high or medium. -/
def riskyFilterList : List Json → Except PyErr (List Json)
  | [] => .ok []
  | c :: cs =>
    match pyGetMethod c "risk_factor" (Json.str "") with
    | .error e => .error e
    | .ok rf =>
      match pyLower rf with
      | .error e => .error e
      | .ok l =>
        match riskyFilterList cs with
        | .error e => .error e
        | .ok rest =>
          if l = "high" ∨ l = "medium" then .ok (c :: rest) else .ok rest

/-- The new-keys dictionary returned by analysis_agent.  errors is none
when the agent returns without an errors key and some when the parse
failed. -/
structure AgentOut where
  analysis_results : Json
  risky_clients : List Json
  raw_llm_response : String
  errors : Option (List String)
  deriving DecidableEq, Repr

/-- Embedding of analysis_agent from the oracle response onward: parse
the response, and either return the failure keys (empty results, empty
risky list, one error entry) or filter the risky clients. -/
def analysis_agent_post (raw : String) : Except PyErr AgentOut :=
  let res := (parse_llm_response raw).1
  if pyTruthy res then
    match pyIter res with
    | .error e => .error e
    | .ok items =>
      match riskyFilterList items with
      | .error e => .error e
      | .ok risky => .ok ⟨res, risky, raw, none⟩
  else
    .ok ⟨Json.arr [], [], raw, some ["Failed to parse analysis response"]⟩

/-- The hypothesis of the terminal-failure claim, read off the parsing
code: there is no bracket span, or none of direct parse, repair parse
and salvage produces anything. -/
def statesAllFail (r : String) : Bool :=
  match spanOf (stripFences r.data) with
  | none => true
  | some span =>
    (jsonLoadsChars span).isNone && (jsonLoadsChars (repairB span)).isNone
      && (salvageObjects span).isEmpty

/-! Embedding of src/core/data_loader.py. -/

/-- Python list indexing at zero as used for labels[0]: lists and
strings index, dicts raise KeyError for the integer key, other values
are not subscriptable. -/
def pyIndexZero : Json → Except PyErr Json
  | .arr (x :: _) => .ok x
  | .arr [] => .error .indexError
  | .str s =>
    match s.data with
    | c :: _ => .ok (Json.str (String.mk [c]))
    | [] => .error .indexError
  | .obj _ => .error .keyError
  | _ => .error .typeError

/-- load_jira_tickets applied to an already-parsed JSON document:
a dict with an issues key returns that value, a list is returned
unchanged, any other dict is wrapped in a one-element list, and
everything else becomes the empty list. -/
def load_jira_tickets (data : Json) : Json :=
  match data with
  | .obj kvs =>
    match kvs.find? (fun p => p.1 = "issues") with
    | some p => p.2
    | none => Json.arr [Json.obj kvs]
  | .arr xs => Json.arr xs
  | _ => Json.arr []

/-- Text parts contributed by the items of one paragraph block in
extract_ticket_text: for each item, get type (raising on non-dicts) and,
when it is text, append the text field defaulted to the empty string. -/
def collectItems : List Json → Except PyErr (List Json)
  | [] => .ok []
  | it :: its =>
    match pyGetMethod it "type" Json.null with
    | .error e => .error e
    | .ok t =>
      if t = Json.str "text" then
        match pyGetMethod it "text" (Json.str "") with
        | .error e => .error e
        | .ok tx =>
          match collectItems its with
          | .error e => .error e
          | .ok rest => .ok (tx :: rest)
      else collectItems its

/-- The block loop of extract_ticket_text: for each block, get type
(raising on non-dicts) and, for paragraph blocks, iterate the content
field defaulted to the empty list, collecting text parts. -/
def collectTicketText : List Json → Except PyErr (List Json)
  | [] => .ok []
  | b :: bs =>
    match pyGetMethod b "type" Json.null with
    | .error e => .error e
    | .ok t =>
      if t = Json.str "paragraph" then
        match pyGetMethod b "content" (Json.arr []) with
        | .error e => .error e
        | .ok inner =>
          match pyIter inner with
          | .error e => .error e
          | .ok items =>
            match collectItems items with
            | .error e => .error e
            | .ok parts1 =>
              match collectTicketText bs with
              | .error e => .error e
              | .ok parts2 => .ok (parts1 ++ parts2)
      else collectTicketText bs

/-- The collected parts as strings, when they all are: str.join raises
TypeError on any non-string part. -/
def strParts : List Json → Option (List String)
  | [] => some []
  | Json.str s :: rest => (strParts rest).map (fun ss => s :: ss)
  | _ :: _ => none

/-- Embedding of extract_ticket_text: falsy or non-dict descriptions
yield the empty string; otherwise walk the content blocks and join the
collected text runs with single spaces. -/
def extract_ticket_text (description : Json) : Except PyErr String :=
  if pyTruthy description = false then .ok ""
  else
    match description with
    | .obj kvs =>
      match pyGetMethod (Json.obj kvs) "content" (Json.arr []) with
      | .error e => .error e
      | .ok content =>
        match pyIter content with
        | .error e => .error e
        | .ok blocks =>
          match collectTicketText blocks with
          | .error e => .error e
          | .ok parts =>
            match strParts parts with
            | some ss => .ok (String.intercalate " " ss)
            | none => .error .typeError
    | _ => .ok ""

/-- The group captured at one candidate position of the regex
Client-colon, whitespace, then one or more non-newline characters:
after the literal, the whitespace run is consumed greedily; if a
character follows the run it starts the group, which extends to the
next newline; if the text ends in whitespace, backtracking surrenders
the last non-newline whitespace character as a one-character group;
if neither exists there is no match at this position. -/
def labelGroupAt (rest : List Char) : Option (List Char) :=
  let w := rest.takeWhile pyWs
  let r := rest.dropWhile pyWs
  match r with
  | _ :: _ => some (r.takeWhile (fun c => ¬ c = '\n'))
  | [] =>
    match (w.filter (fun c => ¬ c = '\n')).getLast? with
    | some c => some [c]
    | none => none

/-- re.search (IGNORECASE) for a labelled value such as Client-colon or
Module-colon: scan left to right for the lowercase pattern and return
the first position's captured group. -/
def searchLabeled (pat : List Char) : List Char → Option (List Char)
  | [] => none
  | c :: rest =>
    if ((c :: rest).take pat.length).map Char.toLower = pat then
      match labelGroupAt ((c :: rest).drop pat.length) with
      | some g => some g
      | none => searchLabeled pat rest
    else searchLabeled pat rest

/-- Embedding of extract_client_from_description: the stripped captured
group of the Client-colon regex, or the empty string. -/
def extract_client_from_description (t : String) : String :=
  if t.isEmpty then ""
  else
    match searchLabeled ("client:").data t.data with
    | some g => String.mk (pyStrip g)
    | none => ""

/-- Embedding of extract_module_from_description. -/
def extract_module_from_description (t : String) : String :=
  if t.isEmpty then ""
  else
    match searchLabeled ("module:").data t.data with
    | some g => String.mk (pyStrip g)
    | none => ""

/-- re.search for a trailing parenthetical: an opening parenthesis, one
or more non-closing characters, a closing parenthesis, then only
whitespace to the end of the summary. -/
def parenScan : List Char → Option (List Char)
  | [] => none
  | c :: rest =>
    if c = '(' then
      let g := rest.takeWhile (fun x => ¬ x = ')')
      match rest.dropWhile (fun x => ¬ x = ')') with
      | ')' :: tail =>
        if g ≠ [] ∧ tail.all pyWs then some g else parenScan rest
      | _ => parenScan rest
    else parenScan rest

/-- The stripped trailing parenthetical of a summary line, or the empty
string. -/
def trailingParen (s : String) : String :=
  match parenScan s.data with
  | some g => String.mk (pyStrip g)
  | none => ""

/-- The client-attribution chain of simplify_jira_tickets: custom field
customfield_10159 unless falsy or the literal Unknown, then the
Client-colon regex on the flattened description, then the trailing
parenthetical of the summary, then the literal Unknown. -/
def clientAttribution (fields : Json) (descText : String) : Except PyErr Json :=
  match pyGetMethod fields "customfield_10159" (Json.str "") with
  | .error e => .error e
  | .ok cf0 =>
    let cn1 :=
      if ¬ pyTruthy cf0 ∨ cf0 = Json.str "Unknown" then
        Json.str (extract_client_from_description descText)
      else cf0
    if pyTruthy cn1 then .ok cn1
    else
      match pyGetMethod fields "summary" (Json.str "") with
      | .error e => .error e
      | .ok (Json.str summary) =>
        let cn2 :=
          match parenScan summary.data with
          | some g => Json.str (String.mk (pyStrip g))
          | none => cn1
        if pyTruthy cn2 then .ok cn2 else .ok (Json.str "Unknown")
      | .ok _ => .error .typeError

/-- Embedding of extract_affected_modules: the value fields of the
dict entries of custom field customfield_10370. -/
def extract_affected_modules (ticket : Json) : Except PyErr (List Json) :=
  match pyGetMethod ticket "fields" (Json.obj []) with
  | .error e => .error e
  | .ok fields =>
    match pyGetMethod fields "customfield_10370" (Json.arr []) with
    | .error e => .error e
    | .ok cf =>
      if pyTruthy cf then
        match pyIter cf with
        | .error e => .error e
        | .ok items =>
          .ok (items.filterMap (fun it =>
            match it with
            | .obj kvs => (kvs.find? (fun p => p.1 = "value")).map (fun p => p.2)
            | _ => none))
      else .ok []

/-- One simplified ticket record of simplify_jira_tickets. -/
def simplifyTicket (ticket : Json) : Except PyErr Json :=
  match pyGetMethod ticket "fields" (Json.obj []) with
  | .error e => .error e
  | .ok fields =>
    match pyGetMethod fields "description" (Json.obj []) with
    | .error e => .error e
    | .ok desc =>
      match extract_ticket_text desc with
      | .error e => .error e
      | .ok descText =>
        match clientAttribution fields descText with
        | .error e => .error e
        | .ok clientName =>
          match pyGetMethod fields "labels" (Json.arr []) with
          | .error e => .error e
          | .ok labels =>
            let module0 := extract_module_from_description descText
            match (if module0 = "" ∧ pyTruthy labels then pyIndexZero labels
                   else .ok (Json.str module0) : Except PyErr Json) with
            | .error e => .error e
            | .ok moduleV =>
              match pyGetMethod fields "priority" (Json.obj []) with
              | .error e => .error e
              | .ok prio0 =>
                match pyGetMethod prio0 "name" (Json.str "Unknown") with
                | .error e => .error e
                | .ok prio =>
                  match pyGetMethod fields "status" (Json.obj []) with
                  | .error e => .error e
                  | .ok status0 =>
                    match pyGetMethod status0 "name" (Json.str "Unknown") with
                    | .error e => .error e
                    | .ok status =>
                      match extract_affected_modules ticket with
                      | .error e => .error e
                      | .ok mods =>
                        match pyGetMethod ticket "key" (Json.str "") with
                        | .error e => .error e
                        | .ok keyV =>
                          match pyGetMethod ticket "id" (Json.str "") with
                          | .error e => .error e
                          | .ok idV =>
                            match pyGetMethod fields "summary" (Json.str "") with
                            | .error e => .error e
                            | .ok summaryV =>
                              match pyGetMethod fields "created" (Json.str "") with
                              | .error e => .error e
                              | .ok created =>
                                match pyGetMethod fields "updated" (Json.str "") with
                                | .error e => .error e
                                | .ok updated =>
                                  .ok (Json.obj
                                    [("key", keyV), ("id", idV),
                                     ("client_name", clientName),
                                     ("summary", summaryV),
                                     ("description", Json.str descText),
                                     ("priority", prio), ("status", status),
                                     ("created", created), ("updated", updated),
                                     ("affected_module", moduleV),
                                     ("affected_modules", Json.arr mods),
                                     ("labels", labels)])

/-- Embedding of simplify_jira_tickets: one simplified record per
ticket, in order. -/
def simplify_jira_tickets : List Json → Except PyErr (List Json)
  | [] => .ok []
  | t :: ts =>
    match simplifyTicket t with
    | .error e => .error e
    | .ok r =>
      match simplify_jira_tickets ts with
      | .error e => .error e
      | .ok rs => .ok (r :: rs)

/-- Python dict .get as a pure lookup on a key/value list. -/
def getD (kvs : List (String × Json)) (k : String) (dflt : Json) : Json :=
  match kvs.find? (fun p => p.1 = k) with
  | some p => p.2
  | none => dflt

/-- A well-typed text item of a description block: a dict whose text
field (when the item is a text run) is a string. -/
def wfItem (it : Json) : Bool :=
  match it with
  | .obj kvs =>
    if getD kvs "type" Json.null = Json.str "text" then
      match getD kvs "text" (Json.str "") with
      | Json.str _ => true
      | _ => false
    else true
  | _ => false

/-- A well-typed description block: a dict whose content (when the
block is a paragraph) is a list of well-typed items. -/
def wfBlock (b : Json) : Bool :=
  match b with
  | .obj kvs =>
    if getD kvs "type" Json.null = Json.str "paragraph" then
      match getD kvs "content" (Json.arr []) with
      | Json.arr items => items.all wfItem
      | _ => false
    else true
  | _ => false

/-- A well-typed description: anything that is not a dict (flattened to
the empty string), or a dict whose content is a list of well-typed
blocks. -/
def wfDescription (d : Json) : Bool :=
  match d with
  | .obj kvs =>
    match getD kvs "content" (Json.arr []) with
    | Json.arr blocks => blocks.all wfBlock
    | _ => false
  | _ => true

/-- Text run contributed by one item, as the specification words it:
text items contribute their text (the empty string when absent),
non-text items are ignored. -/
def specItemText (it : Json) : Option String :=
  match it with
  | .obj kvs =>
    if getD kvs "type" Json.null = Json.str "text" then
      match getD kvs "text" (Json.str "") with
      | Json.str s => some s
      | _ => some ""
    else none
  | _ => none

/-- Text runs contributed by one block, as the specification words it:
paragraph blocks contribute the runs of their content items,
non-paragraph blocks are ignored. -/
def specBlockParts (b : Json) : List String :=
  match b with
  | .obj kvs =>
    if getD kvs "type" Json.null = Json.str "paragraph" then
      match getD kvs "content" (Json.arr []) with
      | Json.arr items => items.filterMap specItemText
      | _ => []
    else []
  | _ => []

/-- All text runs of a description. -/
def specTextParts (d : Json) : List String :=
  match d with
  | .obj kvs =>
    match getD kvs "content" (Json.arr []) with
    | Json.arr blocks => (blocks.map specBlockParts).flatten
    | _ => []
  | _ => []

/-- Description flattening as the specification words it: the text runs
of the paragraph blocks concatenated with single spaces, the empty
string for missing or malformed structure. -/
def specFlatten (d : Json) : String :=
  String.intercalate " " (specTextParts d)

theorem pyGet_obj (kvs : List (String × Json)) (k : String) (dflt : Json) :
    pyGetMethod (Json.obj kvs) k dflt = .ok (getD kvs k dflt) := by
  unfold pyGetMethod getD
  cases h : kvs.find? (fun p => p.1 = k) <;> simp [h]

theorem strParts_map (ss : List String) :
    strParts (ss.map Json.str) = some ss := by
  induction ss with
  | nil => rfl
  | cons s ss ih => simp [strParts, ih]

theorem collectItems_wf (items : List Json) (h : items.all wfItem = true) :
    collectItems items = .ok ((items.filterMap specItemText).map Json.str) := by
  induction items with
  | nil => rfl
  | cons it its ih =>
    rw [List.all_cons, Bool.and_eq_true] at h
    obtain ⟨hit, hits⟩ := h
    cases it with
    | obj kvs =>
      simp only [collectItems, pyGet_obj, List.filterMap_cons, specItemText]
      by_cases ht : getD kvs "type" Json.null = Json.str "text"
      · simp only [wfItem, if_pos ht] at hit
        rw [if_pos ht]
        cases hx : getD kvs "text" (Json.str "") with
        | str s => simp [hx, ht, ih hits]
        | null => rw [hx] at hit; exact absurd hit (by simp)
        | bool b => rw [hx] at hit; exact absurd hit (by simp)
        | num n => rw [hx] at hit; exact absurd hit (by simp)
        | arr xs => rw [hx] at hit; exact absurd hit (by simp)
        | obj o => rw [hx] at hit; exact absurd hit (by simp)
      · rw [if_neg ht]
        simp [ht, ih hits]
    | null => exact absurd hit (by simp [wfItem])
    | bool b => exact absurd hit (by simp [wfItem])
    | num n => exact absurd hit (by simp [wfItem])
    | str s => exact absurd hit (by simp [wfItem])
    | arr xs => exact absurd hit (by simp [wfItem])

theorem collectTicketText_wf (blocks : List Json)
    (h : blocks.all wfBlock = true) :
    collectTicketText blocks =
      .ok (((blocks.map specBlockParts).flatten).map Json.str) := by
  induction blocks with
  | nil => rfl
  | cons b bs ih =>
    rw [List.all_cons, Bool.and_eq_true] at h
    obtain ⟨hb, hbs⟩ := h
    cases b with
    | obj kvs =>
      simp only [collectTicketText, pyGet_obj, List.map_cons, List.flatten_cons,
        specBlockParts]
      by_cases ht : getD kvs "type" Json.null = Json.str "paragraph"
      · simp only [wfBlock, if_pos ht] at hb
        rw [if_pos ht]
        cases hc : getD kvs "content" (Json.arr []) with
        | arr items =>
          have hb2 : items.all wfItem = true := by rw [hc] at hb; exact hb
          simp [hc, ht, pyIter, collectItems_wf items hb2, ih hbs,
            List.map_append]
        | null => rw [hc] at hb; exact absurd hb (by simp)
        | bool b2 => rw [hc] at hb; exact absurd hb (by simp)
        | num n => rw [hc] at hb; exact absurd hb (by simp)
        | str s => rw [hc] at hb; exact absurd hb (by simp)
        | obj o => rw [hc] at hb; exact absurd hb (by simp)
      · rw [if_neg ht]
        simp [ht, ih hbs]
    | null => exact absurd hb (by simp [wfBlock])
    | bool b2 => exact absurd hb (by simp [wfBlock])
    | num n => exact absurd hb (by simp [wfBlock])
    | str s => exact absurd hb (by simp [wfBlock])
    | arr xs => exact absurd hb (by simp [wfBlock])

/-- C7 as stated is false: on a dict description whose content list
holds a non-dict block, extract_ticket_text raises AttributeError
(block.get on a non-dict) instead of returning a string. -/
theorem C7_counterexample :
    extract_ticket_text (Json.obj [("content", Json.arr [Json.num "5"])]) =
      .error PyErr.attributeError ∧
    (∀ s : String,
      (Except.error PyErr.attributeError : Except PyErr String) ≠ .ok s) :=
  ⟨rfl, fun _ h => Except.noConfusion h⟩

/-- C7 amended: on non-dict or falsy descriptions and on well-typed
block structures (content a list of dicts, paragraph contents lists of
dicts with string text fields), extract_ticket_text returns the
space-join of the text runs of the paragraph blocks and raises nothing;
on other malformed nested structures it raises (AttributeError or
TypeError) rather than returning the empty string. -/
theorem C7_flatten_wf (d : Json) (h : wfDescription d = true) :
    extract_ticket_text d = .ok (specFlatten d) := by
  cases hb : pyTruthy d with
  | false =>
    have hflat : specFlatten d = "" := by
      cases d with
      | obj kvs =>
        have : kvs = [] := by
          simp [pyTruthy, List.isEmpty_iff] at hb; exact hb
        subst this; rfl
      | null => rfl
      | bool b2 => rfl
      | num n => rfl
      | str s => rfl
      | arr xs =>
        have : xs = [] := by
          simp [pyTruthy, List.isEmpty_iff] at hb; exact hb
        subst this; rfl
    rw [hflat]
    unfold extract_ticket_text
    rw [hb]
    rfl
  | true =>
    cases d with
    | obj kvs =>
      unfold extract_ticket_text
      rw [hb]
      simp only [pyGet_obj]
      cases hc : getD kvs "content" (Json.arr []) with
      | arr blocks =>
        have h2 : blocks.all wfBlock = true := by
          simp only [wfDescription, hc] at h; exact h
        simp only [pyIter, collectTicketText_wf blocks h2, strParts_map]
        simp [specFlatten, specTextParts, hc]
      | null => simp [wfDescription, hc] at h
      | bool b2 => simp [wfDescription, hc] at h
      | num n => simp [wfDescription, hc] at h
      | str s => simp [wfDescription, hc] at h
      | obj o => simp [wfDescription, hc] at h
    | null => simp [pyTruthy] at hb
    | bool b2 => unfold extract_ticket_text; rw [hb]; rfl
    | num n => unfold extract_ticket_text; rw [hb]; rfl
    | str s => unfold extract_ticket_text; rw [hb]; rfl
    | arr xs => unfold extract_ticket_text; rw [hb]; rfl

/-- C7 witness at a typical two-run paragraph description with an
ignored non-paragraph block. -/
theorem C7_witness :
    wfDescription (Json.obj [("content", Json.arr
      [Json.obj [("type", Json.str "paragraph"),
        ("content", Json.arr
          [Json.obj [("type", Json.str "text"), ("text", Json.str "Hello")],
           Json.obj [("type", Json.str "text"), ("text", Json.str "world")]])],
       Json.obj [("type", Json.str "rule")]])]) = true ∧
    extract_ticket_text (Json.obj [("content", Json.arr
      [Json.obj [("type", Json.str "paragraph"),
        ("content", Json.arr
          [Json.obj [("type", Json.str "text"), ("text", Json.str "Hello")],
           Json.obj [("type", Json.str "text"), ("text", Json.str "world")]])],
       Json.obj [("type", Json.str "rule")]])]) = .ok "Hello world" := by
  refine ⟨by decide, ?_⟩
  have h := C7_flatten_wf (Json.obj [("content", Json.arr
      [Json.obj [("type", Json.str "paragraph"),
        ("content", Json.arr
          [Json.obj [("type", Json.str "text"), ("text", Json.str "Hello")],
           Json.obj [("type", Json.str "text"), ("text", Json.str "world")]])],
       Json.obj [("type", Json.str "rule")]])]) (by decide)
  rw [h]
  rfl

/-- The client-attribution algorithm as the specification words it:
four tiers in priority order, first match wins - the explicit custom
field when present (truthy) and not the literal Unknown, the
Client-colon regex value from the flattened description, the trailing
parenthetical of the summary, and the literal Unknown. -/
def specAttribution (cf : Json) (descText : String) (summary : String) : Json :=
  if pyTruthy cf = true ∧ ¬ cf = Json.str "Unknown" then cf
  else if ¬ extract_client_from_description descText = "" then
    Json.str (extract_client_from_description descText)
  else if ¬ trailingParen summary = "" then Json.str (trailingParen summary)
  else Json.str "Unknown"

/-- C10 counterexample to the claim that load_jira_tickets always
returns a list: a dict whose issues key holds a non-list value is
returned as that value. -/
theorem C10_counterexample :
    load_jira_tickets (Json.obj [("issues", Json.num "5")]) = Json.num "5" ∧
    (∀ xs : List Json, Json.num "5" ≠ Json.arr xs) :=
  ⟨rfl, fun _ h => Json.noConfusion h⟩

/-- C10 amended: load_jira_tickets is total on parsed JSON values and
follows the four-way shape dispatch exactly; the result is the issues
value itself for a dict containing issues (a list only when that value
is one), the unchanged list for a list, a one-element list for any
other dict, and the empty list for every non-container value. -/
theorem C10_load_jira_shapes (d : Json) :
    (∀ xs, d = Json.arr xs → load_jira_tickets d = Json.arr xs) ∧
    (∀ kvs p, d = Json.obj kvs →
      kvs.find? (fun q => q.1 = "issues") = some p →
      load_jira_tickets d = p.2) ∧
    (∀ kvs, d = Json.obj kvs →
      kvs.find? (fun q => q.1 = "issues") = none →
      load_jira_tickets d = Json.arr [Json.obj kvs]) ∧
    (d = Json.null → load_jira_tickets d = Json.arr []) ∧
    (∀ b, d = Json.bool b → load_jira_tickets d = Json.arr []) ∧
    (∀ n, d = Json.num n → load_jira_tickets d = Json.arr []) ∧
    (∀ s, d = Json.str s → load_jira_tickets d = Json.arr []) := by
  refine ⟨?_, ?_, ?_, ?_, ?_, ?_, ?_⟩
  · intro xs h; subst h; rfl
  · intro kvs p h hf; subst h; simp [load_jira_tickets, hf]
  · intro kvs h hf; subst h; simp [load_jira_tickets, hf]
  · intro h; subst h; rfl
  · intro b h; subst h; rfl
  · intro n h; subst h; rfl
  · intro s h; subst h; rfl

/-- C10 witness at the four concrete shapes. -/
theorem C10_witness :
    load_jira_tickets (Json.obj [("issues", Json.arr [Json.num "1"])]) =
      Json.arr [Json.num "1"] ∧
    load_jira_tickets (Json.arr [Json.num "2"]) = Json.arr [Json.num "2"] ∧
    load_jira_tickets (Json.obj [("a", Json.num "3")]) =
      Json.arr [Json.obj [("a", Json.num "3")]] ∧
    load_jira_tickets (Json.str "zz") = Json.arr [] :=
  ⟨(C10_load_jira_shapes (Json.obj [("issues", Json.arr [Json.num "1"])])).2.1
      [("issues", Json.arr [Json.num "1"])] ("issues", Json.arr [Json.num "1"]) rfl rfl,
   (C10_load_jira_shapes (Json.arr [Json.num "2"])).1 [Json.num "2"] rfl,
   (C10_load_jira_shapes (Json.obj [("a", Json.num "3")])).2.2.1
      [("a", Json.num "3")] rfl rfl,
   (C10_load_jira_shapes (Json.str "zz")).2.2.2.2.2.2 "zz" rfl⟩

/-- C6: under a well-formed fields dictionary (the summary, when the
fallback reaches it, is a string), the client attribution of
simplify_jira_tickets equals the four-tier first-match-wins rule of the
specification, never yields null and always yields a truthy value;
moreover simplify_jira_tickets never drops a record: a successful run
returns exactly one record per input ticket. -/
theorem C6_client_attribution :
    (∀ (kvs : List (String × Json)) (descText : String) (cf : Json) (summary : String),
      pyGetMethod (Json.obj kvs) "customfield_10159" (Json.str "") = .ok cf →
      pyGetMethod (Json.obj kvs) "summary" (Json.str "") = .ok (Json.str summary) →
      clientAttribution (Json.obj kvs) descText =
        .ok (specAttribution cf descText summary) ∧
      specAttribution cf descText summary ≠ Json.null ∧
      pyTruthy (specAttribution cf descText summary) = true) ∧
    (∀ (ts out : List Json),
      simplify_jira_tickets ts = .ok out → out.length = ts.length) := by
  constructor
  · intro kvs descText cf summary hcf hsum
    have hprops : ∀ v : Json, pyTruthy v = true → v ≠ Json.null := by
      intro v hv hn; subst hn; simp [pyTruthy] at hv
    have hstr : ∀ s : String, ¬ s = "" → pyTruthy (Json.str s) = true := by
      intro s hs
      simp [pyTruthy, String.isEmpty_iff, hs]
    have hmain : clientAttribution (Json.obj kvs) descText =
        .ok (specAttribution cf descText summary) ∧
        pyTruthy (specAttribution cf descText summary) = true := by
      unfold clientAttribution specAttribution
      simp only [hcf]
      have hEmp : pyTruthy (Json.str "") = false := by decide
      have hUnk : pyTruthy (Json.str "Unknown") = true := by decide
      by_cases hc1 : ¬ pyTruthy cf = true ∨ cf = Json.str "Unknown"
      · have hspec1 : ¬ (pyTruthy cf = true ∧ ¬ cf = Json.str "Unknown") := by
          tauto
        rw [if_pos hc1, if_neg hspec1]
        by_cases hE : extract_client_from_description descText = ""
        · rw [hE]
          simp only [hsum]
          cases hP : parenScan summary.data with
          | none =>
            have hTP : trailingParen summary = "" := by
              unfold trailingParen; rw [hP]
            simp [hP, hTP, hEmp, hUnk]
          | some g =>
            have hTP : trailingParen summary = String.mk (pyStrip g) := by
              unfold trailingParen; rw [hP]
            by_cases hG : String.mk (pyStrip g) = ""
            · simp [hP, hTP, hG, hEmp, hUnk]
            · simp [hP, hTP, hG, hEmp, hstr _ hG]
        · simp [hE, hstr _ hE]
      · push_neg at hc1
        obtain ⟨hT, hU⟩ := hc1
        have hcn1 : (if ¬ pyTruthy cf = true ∨ cf = Json.str "Unknown" then
            Json.str (extract_client_from_description descText) else cf) = cf :=
          if_neg (by tauto)
        rw [hcn1, if_pos hT, if_pos ⟨hT, hU⟩]
        exact ⟨rfl, hT⟩
    exact ⟨hmain.1, hprops _ hmain.2, hmain.2⟩
  · intro ts
    induction ts with
    | nil => intro out h; simp [simplify_jira_tickets] at h; subst h; rfl
    | cons t ts ih =>
      intro out h
      unfold simplify_jira_tickets at h
      cases h1 : simplifyTicket t with
      | error e => rw [h1] at h; exact absurd h (by simp)
      | ok r =>
        rw [h1] at h
        cases h2 : simplify_jira_tickets ts with
        | error e => rw [h2] at h; exact absurd h (by simp)
        | ok rs =>
          rw [h2] at h
          obtain rfl := (Except.ok.inj h).symm
          simp [ih rs h2]

/-- C6 witness: a ticket whose custom field is the placeholder Unknown
and whose description is empty resolves through the summary
parenthetical. -/
theorem C6_witness :
    pyGetMethod (Json.obj [("customfield_10159", Json.str "Unknown"),
        ("summary", Json.str "Broken again (Acme)")])
      "customfield_10159" (Json.str "") = .ok (Json.str "Unknown") ∧
    pyGetMethod (Json.obj [("customfield_10159", Json.str "Unknown"),
        ("summary", Json.str "Broken again (Acme)")])
      "summary" (Json.str "") = .ok (Json.str "Broken again (Acme)") ∧
    clientAttribution
      (Json.obj [("customfield_10159", Json.str "Unknown"),
        ("summary", Json.str "Broken again (Acme)")]) "" =
      .ok (Json.str "Acme") ∧
    simplify_jira_tickets [] = .ok [] :=
  ⟨rfl, rfl,
   by
    have h := (C6_client_attribution.1
      [("customfield_10159", Json.str "Unknown"),
       ("summary", Json.str "Broken again (Acme)")]
      "" (Json.str "Unknown") "Broken again (Acme)" rfl rfl).1
    rw [h]; rfl,
   by
    have := C6_client_attribution.2 [] [] rfl
    rfl⟩

/-! Embedding of parse_llm_text_to_documents and store_in_chromadb from
src/agents/rag_agent.py, and of ChromaStore from src/rag/vector_store.py.
The run timestamp (strftime) and the generated_at isoformat values are
nondeterministic clock reads and are passed in as parameters; document
content interpolates Python str() of values via pyStr, which renders
containers approximately - no claim depends on content text. -/

/-- One document chunk as built by the RAG agent. -/
structure RagDoc where
  id : String
  content : String
  metadata : List (String × Json)
  deriving DecidableEq, Repr

/-- Python str() of the values interpolated into document text.
Containers are rendered approximately. -/
def pyStr : Json → String
  | .str s => s
  | .num n => n
  | .bool true => "True"
  | .bool false => "False"
  | .null => "None"
  | .arr _ => "[...]"
  | .obj _ => "\x7b...\x7d"

/-- Python len() of a value: containers and strings only. -/
def pyLen : Json → Except PyErr Nat
  | .arr xs => .ok xs.length
  | .str s => .ok s.length
  | .obj kvs => .ok kvs.length
  | _ => .error .typeError

/-- Python integer accumulation total plus value, as used for activity
counts: integers add, booleans count as one and zero, anything else
raises TypeError (non-integral numeric lexemes are outside the modelled
input family). -/
def pyAddNum (acc : Int) (v : Json) : Except PyErr Int :=
  match v with
  | .num n =>
    match (jsonLoadsChars n.data) with
    | some (.num _) =>
      if n.data.all (fun c => c.isDigit ∨ c = '-') then
        match n.toInt? with
        | some i => .ok (acc + i)
        | none => .error .typeError
      else .error .typeError
    | _ => .error .typeError
  | .bool true => .ok (acc + 1)
  | .bool false => .ok acc
  | _ => .error .typeError

/-- Python set insertion, preserving first-insertion order. -/
def setInsert (seen : List Json) (v : Json) : List Json :=
  if v ∈ seen then seen else seen ++ [v]

/-- Python str.join over an iterable: every element must be a string. -/
def pyJoin (sep : String) (v : Json) : Except PyErr String :=
  match pyIter v with
  | .error e => .error e
  | .ok items =>
    match strParts items with
    | some ss => .ok (String.intercalate sep ss)
    | none => .error .typeError

/-- The chunk-id normalisation of a client name: spaces replaced by
underscores, then lowercased. -/
def normName (s : String) : String :=
  String.mk ((s.data.map (fun c => if c = ' ' then '_' else c)).map Char.toLower)

/-- re.findall (IGNORECASE, DOTALL) of one tagged-section pattern: the
lowercase literal tag, a client name of one or more non-bracket
characters, the closing bracket, then lazy content up to the next
opening bracket or the end of the text.  Returns raw (name, content)
pairs in match order. -/
def sectionMatches (tag : List Char) : Nat → List Char → List (List Char × List Char)
  | 0, _ => []
  | fuel + 1, cs =>
    match cs with
    | [] => []
    | _ :: rest =>
      if (cs.take tag.length).map Char.toLower = tag then
        let after := cs.drop tag.length
        let name := after.takeWhile (fun c => ¬ c = ']')
        match after.dropWhile (fun c => ¬ c = ']') with
        | ']' :: rest2 =>
          if name = [] then sectionMatches tag fuel rest
          else
            let content := rest2.takeWhile (fun c => ¬ c = '[')
            let rem := rest2.dropWhile (fun c => ¬ c = '[')
            (name, content) :: sectionMatches tag fuel rem
        | _ => sectionMatches tag fuel rest
      else sectionMatches tag fuel rest

/-- The six tagged-section patterns of parse_llm_text_to_documents, in
source order: lowercase literal, section type, description. -/
def sectionPatterns : List (String × String × String) :=
  [("[client overview: ", "overview", "Client overview and summary"),
   ("[weekly usage: ", "weekly", "Weekly usage breakdown and patterns"),
   ("[module usage: ", "modules", "Module-specific usage analysis"),
   ("[bugs affecting: ", "bugs", "Bug tickets and issues"),
   ("[usage trend: ", "trends", "Usage trends over time"),
   ("[representative: ", "representative", "Client representative info")]

/-- Tier-1 documents: per pattern and per match, strip the name and the
content, keep sections longer than fifty characters, and build the
chunk whose id is the normalised client name, the section type and the
run timestamp. -/
def tier1Docs (llm : List Char) (ts now : String) : List RagDoc :=
  (sectionPatterns.map (fun pst =>
    (sectionMatches pst.1.data llm.length llm).filterMap (fun m =>
      let client_name := String.mk (pyStrip m.1)
      let content := pyStrip m.2
      if ¬ content = [] ∧ 50 < content.length then
        some
          { id := normName client_name ++ "_" ++ pst.2.1 ++ "_" ++ ts,
            content := "Client: " ++ client_name ++ "\nSection: " ++ pst.2.2
              ++ "\n\n" ++ String.mk content,
            metadata :=
              [("client_name", Json.str client_name),
               ("section_type", Json.str pst.2.1),
               ("description", Json.str pst.2.2),
               ("source", Json.str "rag_agent"),
               ("generated_at", Json.str now)] }
      else none))).flatten

/-- Python str.split on a non-empty separator substring. -/
def splitOnSub (sep : List Char) : Nat → List Char → List (List Char)
  | 0, cs => [cs]
  | fuel + 1, cs =>
    if ¬ sep = [] ∧ cs.take sep.length = sep then
      match splitOnSub sep fuel (cs.drop sep.length) with
      | segs => [] :: segs
    else
      match cs with
      | [] => [[]]
      | c :: rest =>
        match splitOnSub sep fuel rest with
        | seg :: segs => (c :: seg) :: segs
        | [] => [[c]]

/-- Python substring membership test. -/
def containsSub (sub : List Char) : Nat → List Char → Bool
  | 0, _ => false
  | fuel + 1, cs =>
    if cs.take sub.length = sub then true
    else
      match cs with
      | [] => false
      | _ :: rest => containsSub sub fuel rest

/-- Python str.replace of a non-empty substring by another. -/
def replaceSub (sub repl : List Char) : Nat → List Char → List Char
  | 0, cs => cs
  | fuel + 1, cs =>
    if ¬ sub = [] ∧ cs.take sub.length = sub then
      repl ++ replaceSub sub repl fuel (cs.drop sub.length)
    else
      match cs with
      | [] => []
      | c :: rest => c :: replaceSub sub repl fuel rest

/-- Tier-2 fallback documents: split the oracle output on the literal
client delimiter, and for each remaining segment containing five equal
signs build one undifferentiated chunk named after its first line. -/
def tier2Docs (llm : List Char) (ts now : String) : List RagDoc :=
  let sections := splitOnSub ("===== CLIENT:").data llm.length llm
  sections.tail.filterMap (fun seg =>
    if containsSub ("=====").data seg.length seg then
      let s := pyStrip seg
      let first := (splitOnSub ['\n'] s.length s).head?.getD []
      let client_name :=
        String.mk (pyStrip (replaceSub ("=====").data [] first.length first))
      some
        { id := "client_" ++ normName client_name ++ "_" ++ ts,
          content := "Client: " ++ client_name ++ "\n\n" ++ String.mk s,
          metadata :=
            [("client_name", Json.str client_name),
             ("section_type", Json.str "full"),
             ("source", Json.str "rag_agent"),
             ("generated_at", Json.str now)] }
    else none)

/-- Tier-3 fallback: the whole oracle output as a single chunk. -/
def tier3Doc (llm : List Char) (ts now : String) : RagDoc :=
  { id := "full_analysis_" ++ ts,
    content := String.mk llm,
    metadata :=
      [("section_type", Json.str "full"),
       ("source", Json.str "rag_agent"),
       ("generated_at", Json.str now)] }

/-- The per-ticket text block of the direct JIRA documents, built from
the simplified record fields with their source defaults and stripped. -/
def jiraTicketText (t : Json) : Except PyErr String :=
  match pyGetMethod t "key" (Json.str "N/A") with
  | .error e => .error e
  | .ok key =>
  match pyGetMethod t "summary" (Json.str "N/A") with
  | .error e => .error e
  | .ok summary =>
  match pyGetMethod t "priority" (Json.str "Unknown") with
  | .error e => .error e
  | .ok priority =>
  match pyGetMethod t "status" (Json.str "Unknown") with
  | .error e => .error e
  | .ok status =>
  match pyGetMethod t "affected_module" (Json.str "N/A") with
  | .error e => .error e
  | .ok module0 =>
  match pyGetMethod t "created" (Json.str "N/A") with
  | .error e => .error e
  | .ok created =>
  match pyGetMethod t "updated" (Json.str "N/A") with
  | .error e => .error e
  | .ok updated =>
  match pyGetMethod t "description" (Json.str "No description") with
  | .error e => .error e
  | .ok descr =>
  match pyGetMethod t "labels" (Json.arr []) with
  | .error e => .error e
  | .ok labels =>
  match pyJoin ", " labels with
  | .error e => .error e
  | .ok labelsJoined =>
    .ok (String.mk (pyStrip ("\nJIRA Ticket: " ++ pyStr key
      ++ "\nSummary: " ++ pyStr summary
      ++ "\nPriority: " ++ pyStr priority
      ++ "\nStatus: " ++ pyStr status
      ++ "\nModule: " ++ pyStr module0
      ++ "\nCreated: " ++ pyStr created
      ++ "\nUpdated: " ++ pyStr updated
      ++ "\nDescription: " ++ pyStr descr
      ++ "\nLabels: " ++ labelsJoined ++ "\n").data))

/-- The per-ticket texts of one client group, in order. -/
def jiraTicketTexts : List Json → Except PyErr (List String)
  | [] => .ok []
  | t :: ts =>
    match jiraTicketText t with
    | .error e => .error e
    | .ok s =>
      match jiraTicketTexts ts with
      | .error e => .error e
      | .ok ss => .ok (s :: ss)

/-- Append a ticket to its client group, preserving dict insertion
order. -/
def groupInsert (groups : List (Json × List Json)) (k : Json) (t : Json) :
    List (Json × List Json) :=
  if groups.any (fun g => g.1 = k) then
    groups.map (fun g => if g.1 = k then (g.1, g.2 ++ [t]) else g)
  else groups ++ [(k, [t])]

/-- Group the simplified tickets by their client_name value. -/
def jiraClientGroupsAux (acc : List (Json × List Json)) :
    List Json → Except PyErr (List (Json × List Json))
  | [] => .ok acc
  | t :: rest =>
    match pyGetMethod t "client_name" (Json.str "Unknown") with
    | .error e => .error e
    | .ok k => jiraClientGroupsAux (groupInsert acc k t) rest

/-- The direct JIRA document of one client group.  The id interpolation
calls replace on the client name, raising AttributeError when the
grouping key is not a string. -/
def jiraGroupDoc (g : Json × List Json) (ts now : String) :
    Except PyErr RagDoc :=
  match jiraTicketTexts g.2 with
  | .error e => .error e
  | .ok texts =>
    let content := "Client: " ++ pyStr g.1
      ++ "\nSection: JIRA Bug Reports\n\nThis client has "
      ++ toString g.2.length ++ " JIRA bug ticket(s):\n\n"
      ++ String.intercalate "---" texts
      ++ "\n\nTotal JIRA tickets for " ++ pyStr g.1 ++ ": "
      ++ toString g.2.length ++ "\n"
    match g.1 with
    | Json.str cname =>
      .ok { id := normName cname ++ "_jira_direct_" ++ ts,
            content := content,
            metadata :=
              [("client_name", g.1),
               ("section_type", Json.str "jira_tickets"),
               ("description", Json.str "JIRA bug tickets for this client"),
               ("source", Json.str "jira_direct"),
               ("ticket_count", Json.num (toString g.2.length)),
               ("generated_at", Json.str now)] }
    | _ => .error .attributeError

/-- One direct JIRA document per client group, in order. -/
def jiraGroupDocs (ts now : String) :
    List (Json × List Json) → Except PyErr (List RagDoc)
  | [] => .ok []
  | g :: gs =>
    match jiraGroupDoc g ts now with
    | .error e => .error e
    | .ok d =>
      match jiraGroupDocs ts now gs with
      | .error e => .error e
      | .ok ds => .ok (d :: ds)

/-- The summary document of all JIRA tickets. -/
def jiraSummaryDoc (groups : List (Json × List Json)) (total : Nat)
    (ts now : String) : Except PyErr RagDoc :=
  match strParts (groups.map (fun g => g.1)) with
  | none => .error .typeError
  | some keys =>
    let content := "JIRA Bug Reports Summary\n\nTotal Tickets: "
      ++ toString total ++ "\nClients with JIRA Data: "
      ++ String.intercalate ", " keys ++ "\n\nBreakdown by Client:\n"
      ++ String.join (groups.map (fun g =>
          "- " ++ pyStr g.1 ++ ": " ++ toString g.2.length ++ " tickets\n"))
      ++ "\nNote: Only Development, Construction KaT, and UB Civil have JIRA bug data.\n"
    .ok { id := "jira_summary_" ++ ts,
          content := content,
          metadata :=
            [("section_type", Json.str "jira_summary"),
             ("description", Json.str "Summary of all JIRA tickets"),
             ("source", Json.str "jira_direct"),
             ("total_tickets", Json.num (toString total)),
             ("generated_at", Json.str now)] }

/-- The representative lines of one client for the roster document. -/
def repLinesOf (cname : Json) : List Json → Except PyErr (List String)
  | [] => .ok []
  | rep :: reps =>
    match pyGetMethod rep "full_name" (Json.str "N/A") with
    | .error e => .error e
    | .ok fn =>
      match pyGetMethod rep "email" (Json.str "N/A") with
      | .error e => .error e
      | .ok em =>
        match repLinesOf cname reps with
        | .error e => .error e
        | .ok rest =>
          .ok (("Client: " ++ pyStr cname)
            :: ("  Representative: " ++ pyStr fn)
            :: ("  Email: " ++ pyStr em)
            :: "" :: rest)

/-- The per-client roster lines and the with/without counters. -/
def repsLines : List Json → Except PyErr (List String × Nat × Nat)
  | [] => .ok ([], 0, 0)
  | c :: cs =>
    match pyGetMethod c "client_name" (Json.str "Unknown") with
    | .error e => .error e
    | .ok cname =>
      match pyGetMethod c "client_representatives" (Json.arr []) with
      | .error e => .error e
      | .ok reps =>
        if pyTruthy reps then
          match pyIter reps with
          | .error e => .error e
          | .ok rlist =>
            match repLinesOf cname rlist with
            | .error e => .error e
            | .ok ls =>
              match repsLines cs with
              | .error e => .error e
              | .ok (rest, w, wo) => .ok (ls ++ rest, w + 1, wo)
        else
          match repsLines cs with
          | .error e => .error e
          | .ok (rest, w, wo) =>
            .ok (("Client: " ++ pyStr cname)
              :: "  Representative: Not assigned yet"
              :: "" :: rest, w, wo + 1)

/-- The client-representatives roster document. -/
def repsDoc (usage_data : List Json) (ts now : String) :
    Except PyErr RagDoc :=
  match repsLines usage_data with
  | .error e => .error e
  | .ok (ls, w, wo) =>
    let rep_lines := "Client Representatives Summary\n" :: ls
      ++ ["\nTotal clients: " ++ toString usage_data.length,
          "Clients with representatives: " ++ toString w,
          "Clients without representatives: " ++ toString wo]
    .ok { id := "representatives_summary_" ++ ts,
          content := String.intercalate "\n" rep_lines,
          metadata :=
            [("section_type", Json.str "representatives"),
             ("description", Json.str "Client representatives summary"),
             ("source", Json.str "usage_data"),
             ("generated_at", Json.str now)] }

/-- Accumulate the activity counts and the set of module names of one
week's activities. -/
def sumActivities (total : Int) (modules : List Json) :
    List Json → Except PyErr (Int × List Json)
  | [] => .ok (total, modules)
  | a :: as0 =>
    match pyGetMethod a "count" (Json.num "0") with
    | .error e => .error e
    | .ok cnt =>
      match pyAddNum total cnt with
      | .error e => .error e
      | .ok total2 =>
        match pyGetMethod a "name" (Json.str "") with
        | .error e => .error e
        | .ok nm => sumActivities total2 (setInsert modules nm) as0

/-- Accumulate counts and modules across the weeks of one client. -/
def sumWeeks (total : Int) (modules : List Json) :
    List Json → Except PyErr (Int × List Json)
  | [] => .ok (total, modules)
  | w :: ws =>
    match pyGetMethod w "activities" (Json.arr []) with
    | .error e => .error e
    | .ok acts =>
      match pyIter acts with
      | .error e => .error e
      | .ok as0 =>
        match sumActivities total modules as0 with
        | .error e => .error e
        | .ok (t2, m2) => sumWeeks t2 m2 ws

/-- The clients whose names mark full usage-plus-JIRA data in the
all-clients table. -/
def full_data_clients : List String :=
  ["development", "construction kat", "contruction kat", "ub civil"]

/-- One row of the all-clients usage table. -/
def clientRow (c : Json) : Except PyErr String :=
  match pyGetMethod c "client_name" (Json.str "Unknown") with
  | .error e => .error e
  | .ok cname =>
    match pyGetMethod c "usage" (Json.arr []) with
    | .error e => .error e
    | .ok usage =>
      match pyLen usage with
      | .error e => .error e
      | .ok weeks_count =>
        match pyIter usage with
        | .error e => .error e
        | .ok weeks =>
          match sumWeeks 0 [] weeks with
          | .error e => .error e
          | .ok (total, modules) =>
            match pyLower cname with
            | .error e => .error e
            | .ok lower =>
              let has_jira := if lower ∈ full_data_clients then "Yes" else "No"
              .ok ("| " ++ pyStr cname ++ " | " ++ toString total ++ " | "
                ++ toString modules.length ++ " | " ++ toString weeks_count
                ++ " | " ++ has_jira ++ " |")

/-- The rows of the all-clients usage table, in order. -/
def clientRows : List Json → Except PyErr (List String)
  | [] => .ok []
  | c :: cs =>
    match clientRow c with
    | .error e => .error e
    | .ok r =>
      match clientRows cs with
      | .error e => .error e
      | .ok rs => .ok (r :: rs)

/-- The all-clients usage summary document. -/
def allClientsDoc (usage_data : List Json) (ts now : String) :
    Except PyErr RagDoc :=
  match clientRows usage_data with
  | .error e => .error e
  | .ok rows =>
    let all_clients_lines :=
      ["ALL CLIENTS USAGE SUMMARY",
       String.mk (List.replicate 50 '='),
       "Total Clients: " ++ toString usage_data.length,
       "",
       "CLIENTS WITH FULL DATA (Usage + JIRA):",
       "- Development",
       "- Construction KaT",
       "- UB Civil",
       "",
       "ALL CLIENTS USAGE TABLE:",
       "",
       "| Client Name | Total Usage | Modules Used | Weeks | Has JIRA |",
       "|-------------|-------------|--------------|-------|----------|"]
      ++ rows
      ++ ["",
          "Note: Only Development, Construction KaT, and UB Civil have JIRA bug data.",
          "All " ++ toString usage_data.length ++ " clients have usage data available."]
    .ok { id := "all_clients_usage_" ++ ts,
          content := String.intercalate "\n" all_clients_lines,
          metadata :=
            [("section_type", Json.str "all_clients"),
             ("description", Json.str "Complete list of all clients with usage summary"),
             ("source", Json.str "usage_data"),
             ("total_clients", Json.num (toString usage_data.length)),
             ("generated_at", Json.str now)] }

/-- One line of the enumerated client list. -/
def clientListLine (i : Nat) (c : Json) : Except PyErr String :=
  match pyGetMethod c "client_name" (Json.str "Unknown") with
  | .error e => .error e
  | .ok cname =>
    match pyGetMethod c "client_representatives" (Json.arr []) with
    | .error e => .error e
    | .ok reps =>
      let repNames : Except PyErr String :=
        if pyTruthy reps then
          match pyIter reps with
          | .error e => .error e
          | .ok rl =>
            match (rl.mapM (fun r => pyGetMethod r "full_name" (Json.str "N/A"))) with
            | .error e => .error e
            | .ok parts =>
              match strParts parts with
              | some ss => .ok (String.intercalate ", " ss)
              | none => .error .typeError
        else .ok "Not assigned"
      match repNames with
      | .error e => .error e
      | .ok rep_names =>
        .ok (toString i ++ ". " ++ pyStr cname ++ " (Representative: "
          ++ rep_names ++ ")\n")

/-- The enumerated lines of the client list, starting at one. -/
def clientListLines (i : Nat) : List Json → Except PyErr (List String)
  | [] => .ok []
  | c :: cs =>
    match clientListLine i c with
    | .error e => .error e
    | .ok l =>
      match clientListLines (i + 1) cs with
      | .error e => .error e
      | .ok ls => .ok (l :: ls)

/-- The plain enumerated client-list document. -/
def clientListDoc (usage_data : List Json) (ts now : String) :
    Except PyErr RagDoc :=
  match clientListLines 1 usage_data with
  | .error e => .error e
  | .ok lines =>
    let content := "Varicon Client List\n\nTotal Number of Clients: "
      ++ toString usage_data.length ++ "\n\nList of All Clients:\n"
      ++ String.join lines
      ++ "\nSummary:\n- Total clients: " ++ toString usage_data.length
      ++ "\n- Clients with JIRA data: 3 (Development, Construction KaT, UB Civil)"
      ++ "\n- Clients with usage data only: "
      ++ toString ((usage_data.length : Int) - 3) ++ "\n"
    .ok { id := "client_list_" ++ ts,
          content := content,
          metadata :=
            [("section_type", Json.str "client_list"),
             ("description", Json.str "Simple list of all Varicon clients"),
             ("source", Json.str "usage_data"),
             ("total_clients", Json.num (toString usage_data.length)),
             ("generated_at", Json.str now)] }

/-- The direct JIRA documents block of parse_llm_text_to_documents: one
document per client group followed by the summary document, or nothing
when no tickets are supplied (the falsy guard). -/
def jiraPartDocs (jira_tickets : List Json) (ts now : String) :
    Except PyErr (List RagDoc) :=
  if jira_tickets = [] then .ok []
  else
    match simplify_jira_tickets jira_tickets with
    | .error e => .error e
    | .ok simplified =>
      match jiraClientGroupsAux [] simplified with
      | .error e => .error e
      | .ok groups =>
        match jiraGroupDocs ts now groups with
        | .error e => .error e
        | .ok gdocs =>
          match jiraSummaryDoc groups simplified.length ts now with
          | .error e => .error e
          | .ok sdoc => .ok (gdocs ++ [sdoc])

/-- Embedding of parse_llm_text_to_documents: the three oracle-parsing
tiers, the direct JIRA documents when tickets are supplied, and the
three deterministic documents, in source order.  ts is the run
timestamp used in every id; now stands for the generated_at clock
reads. -/
def parse_llm_text_to_documents (llm_output : String)
    (usage_data jira_tickets : List Json) (ts now : String) :
    Except PyErr (List RagDoc) :=
  let t1 := tier1Docs llm_output.data ts now
  let base :=
    if ¬ t1 = [] then t1
    else
      let t2 := tier2Docs llm_output.data ts now
      if ¬ t2 = [] then t2 else [tier3Doc llm_output.data ts now]
  match jiraPartDocs jira_tickets ts now with
  | .error e => .error e
  | .ok jd =>
    match repsDoc usage_data ts now with
    | .error e => .error e
    | .ok rd =>
      match allClientsDoc usage_data ts now with
      | .error e => .error e
      | .ok ad =>
        match clientListDoc usage_data ts now with
        | .error e => .error e
        | .ok cd => .ok (base ++ jd ++ [rd, ad, cd])

/-- ChromaStore.delete_all: fetch all ids and delete them when there
are any; the collection is empty afterwards. -/
def delete_all (st : List RagDoc) : List RagDoc :=
  match st with
  | [] => st
  | _ => []

/-- ChromaStore.count. -/
def store_count (st : List RagDoc) : Nat := st.length

/-- ChromaStore.add_documents: an empty batch adds nothing and reports
zero, otherwise every document is added and the batch size reported. -/
def add_documents (st : List RagDoc) (documents : List RagDoc) :
    List RagDoc × Nat :=
  if documents = [] then (st, 0)
  else (st ++ documents, documents.length)

/-- Embedding of store_in_chromadb: purge the whole collection when it
is non-empty, then add the new documents. -/
def store_in_chromadb (st : List RagDoc) (documents : List RagDoc) :
    List RagDoc × Nat :=
  let st1 := if 0 < store_count st then delete_all st else st
  add_documents st1 documents

/-- Common shape of every chunk id: a stem, an underscore, a tag, an
underscore, then the run timestamp. -/
def mkId (stem tag ts : String) : String := stem ++ "_" ++ tag ++ "_" ++ ts

/-- The (normalised client name, section type) pairs of the tier-1
sections that pass the length filter, in document order. -/
def tier1Pairs (llm : List Char) : List (String × String) :=
  (sectionPatterns.map (fun pst =>
    (sectionMatches pst.1.data llm.length llm).filterMap (fun m =>
      let client_name := String.mk (pyStrip m.1)
      let content := pyStrip m.2
      if ¬ content = [] ∧ 50 < content.length then
        some (normName client_name, pst.2.1)
      else none))).flatten

/-- The normalised form of a JIRA grouping key, as used in the direct
JIRA document ids. -/
def keyNorm : Json → String
  | .str s => normName s
  | _ => ""

theorem lastSepAux :
    ∀ (s t a b : List Char), '_' ∉ s → '_' ∉ t →
      s ++ '_' :: a = t ++ '_' :: b → s = t ∧ a = b := by
  intro s
  induction s with
  | nil =>
    intro t a b _ ht h
    cases t with
    | nil => simp at h; exact ⟨rfl, h⟩
    | cons d t' =>
      simp at h
      obtain ⟨h1, _⟩ := h
      subst h1
      exact absurd (List.mem_cons_self _ _) ht
  | cons c s' ih =>
    intro t a b hs ht h
    cases t with
    | nil =>
      simp at h
      obtain ⟨h1, _⟩ := h
      subst h1
      exact absurd (List.mem_cons_self _ _) hs
    | cons d t' =>
      simp only [List.cons_append, List.cons.injEq] at h
      obtain ⟨h1, h2⟩ := h
      have hs' : '_' ∉ s' := fun hm => hs (List.mem_cons_of_mem c hm)
      have ht' : '_' ∉ t' := fun hm => ht (List.mem_cons_of_mem d hm)
      obtain ⟨he, ha⟩ := ih t' a b hs' ht' h2
      exact ⟨by rw [h1, he], ha⟩

theorem string_append_cancel_right (a b t : String) (h : a ++ t = b ++ t) :
    a = b := by
  apply String.ext
  have h2 := congrArg String.data h
  simp only [String.data_append] at h2
  exact List.append_cancel_right h2

theorem mkId_inj (stem1 stem2 tag1 tag2 ts : String)
    (h1 : '_' ∉ tag1.data) (h2 : '_' ∉ tag2.data)
    (h : mkId stem1 tag1 ts = mkId stem2 tag2 ts) :
    stem1 = stem2 ∧ tag1 = tag2 := by
  unfold mkId at h
  rw [String.append_assoc (stem1 ++ "_" ++ tag1),
      String.append_assoc (stem2 ++ "_" ++ tag2)] at h
  have hleft := string_append_cancel_right _ _ _ h
  have hdata := congrArg String.data hleft
  simp only [String.data_append] at hdata
  have hdata2 : stem1.data ++ '_' :: tag1.data = stem2.data ++ '_' :: tag2.data := by
    simpa using hdata
  have hrev := congrArg List.reverse hdata2
  simp only [List.reverse_append, List.reverse_cons] at hrev
  have hrev2 : tag1.data.reverse ++ '_' :: stem1.data.reverse =
      tag2.data.reverse ++ '_' :: stem2.data.reverse := by
    simpa [List.append_assoc] using hrev
  have h1' : '_' ∉ tag1.data.reverse := by simpa using h1
  have h2' : '_' ∉ tag2.data.reverse := by simpa using h2
  obtain ⟨hta, hst⟩ := lastSepAux _ _ _ _ h1' h2' hrev2
  constructor
  · exact String.ext (by simpa using congrArg List.reverse hst)
  · exact String.ext (by simpa using congrArg List.reverse hta)

theorem tier1Docs_ids (llm : List Char) (ts now : String) :
    (tier1Docs llm ts now).map RagDoc.id =
      (tier1Pairs llm).map (fun p => mkId p.1 p.2 ts) := by
  unfold tier1Docs tier1Pairs
  rw [List.map_flatten, List.map_flatten, List.map_map, List.map_map]
  congr 1
  apply List.map_congr_left
  intro pst _
  simp only [Function.comp]
  rw [List.map_filterMap, List.map_filterMap]
  congr 1
  funext m
  by_cases hc : ¬ pyStrip m.2 = [] ∧ 50 < (pyStrip m.2).length
  · simp only [hc, if_pos, ite_true]
    rfl
  · simp only [hc, ite_false, if_neg, Option.map_none]
    simp [hc]

theorem jira_id_shape (n ts : String) :
    n ++ "_jira_direct_" ++ ts = mkId (n ++ "_jira") "direct" ts := by
  unfold mkId
  have h : "_jira_direct_" = (("_jira" ++ "_") ++ "direct") ++ "_" := rfl
  rw [h]
  simp only [String.append_assoc]

theorem jiraGroupDocs_ids (ts now : String) :
    ∀ (groups : List (Json × List Json)) (gdocs : List RagDoc),
      jiraGroupDocs ts now groups = .ok gdocs →
      ∃ names : List String,
        groups.map Prod.fst = names.map Json.str ∧
        gdocs.map RagDoc.id =
          names.map (fun n => mkId (normName n ++ "_jira") "direct" ts) := by
  intro groups
  induction groups with
  | nil =>
    intro gdocs h
    simp only [jiraGroupDocs] at h
    obtain rfl := (Except.ok.inj h).symm
    exact ⟨[], rfl, rfl⟩
  | cons g gs ih =>
    intro gdocs h
    unfold jiraGroupDocs at h
    cases hd : jiraGroupDoc g ts now with
    | error e => rw [hd] at h; exact absurd h (by simp)
    | ok d =>
      rw [hd] at h
      cases hds : jiraGroupDocs ts now gs with
      | error e => rw [hds] at h; exact absurd h (by simp)
      | ok ds =>
        rw [hds] at h
        obtain rfl := (Except.ok.inj h).symm
        obtain ⟨names, hk, hid⟩ := ih ds hds
        unfold jiraGroupDoc at hd
        cases ht : jiraTicketTexts g.2 with
        | error e => rw [ht] at hd; exact absurd hd (by simp)
        | ok texts =>
          rw [ht] at hd
          cases hg : g.1 with
          | str cname =>
            rw [hg] at hd
            obtain rfl := (Except.ok.inj hd).symm
            refine ⟨cname :: names, ?_, ?_⟩
            · simp [hg, hk]
            · simp only [List.map_cons, hid]
              rw [jira_id_shape]
          | null => rw [hg] at hd; exact absurd hd (by simp)
          | bool b => rw [hg] at hd; exact absurd hd (by simp)
          | num n => rw [hg] at hd; exact absurd hd (by simp)
          | arr xs => rw [hg] at hd; exact absurd hd (by simp)
          | obj kvs => rw [hg] at hd; exact absurd hd (by simp)

theorem jiraSummaryDoc_id (groups : List (Json × List Json)) (total : Nat)
    (ts now : String) (d : RagDoc) (h : jiraSummaryDoc groups total ts now = .ok d) :
    d.id = mkId "jira" "summary" ts := by
  unfold jiraSummaryDoc at h
  cases hk : strParts (groups.map (fun g => g.1)) with
  | none => rw [hk] at h; exact absurd h (by simp)
  | some keys =>
    rw [hk] at h
    obtain rfl := (Except.ok.inj h).symm
    rfl

theorem repsDoc_id (usage_data : List Json) (ts now : String) (d : RagDoc)
    (h : repsDoc usage_data ts now = .ok d) :
    d.id = mkId "representatives" "summary" ts := by
  unfold repsDoc at h
  cases hl : repsLines usage_data with
  | error e => rw [hl] at h; exact absurd h (by simp)
  | ok x =>
    obtain ⟨ls, w, wo⟩ := x
    rw [hl] at h
    obtain rfl := (Except.ok.inj h).symm
    rfl

theorem allClientsDoc_id (usage_data : List Json) (ts now : String) (d : RagDoc)
    (h : allClientsDoc usage_data ts now = .ok d) :
    d.id = mkId "all_clients" "usage" ts := by
  unfold allClientsDoc at h
  cases hr : clientRows usage_data with
  | error e => rw [hr] at h; exact absurd h (by simp)
  | ok rows =>
    rw [hr] at h
    obtain rfl := (Except.ok.inj h).symm
    rfl

theorem clientListDoc_id (usage_data : List Json) (ts now : String) (d : RagDoc)
    (h : clientListDoc usage_data ts now = .ok d) :
    d.id = mkId "client" "list" ts := by
  unfold clientListDoc at h
  cases hl : clientListLines 1 usage_data with
  | error e => rw [hl] at h; exact absurd h (by simp)
  | ok lines =>
    rw [hl] at h
    obtain rfl := (Except.ok.inj h).symm
    rfl

/-- The six tier-1 section types. -/
def sixTags : List String :=
  ["overview", "weekly", "modules", "bugs", "trends", "representative"]

theorem tier1Pairs_tag (llm : List Char) (p : String × String)
    (hp : p ∈ tier1Pairs llm) : p.2 ∈ sixTags := by
  unfold tier1Pairs at hp
  rw [List.mem_flatten] at hp
  obtain ⟨l, hl, hpl⟩ := hp
  rw [List.mem_map] at hl
  obtain ⟨pst, hpst, rfl⟩ := hl
  rw [List.mem_filterMap] at hpl
  obtain ⟨m, _, hm⟩ := hpl
  have hsec : p.2 = pst.2.1 := by
    by_cases hc : ¬ pyStrip m.2 = [] ∧ 50 < (pyStrip m.2).length
    · rw [if_pos hc] at hm
      obtain rfl := Option.some.inj hm
      rfl
    · rw [if_neg hc] at hm
      exact absurd hm (by simp)
  rw [hsec]
  simp only [sectionPatterns, List.mem_cons, List.not_mem_nil, or_false] at hpst
  rcases hpst with rfl | rfl | rfl | rfl | rfl | rfl <;> decide

theorem jiraPartDocs_ids (jira : List Json) (ts now : String)
    (jd : List RagDoc) (h : jiraPartDocs jira ts now = .ok jd)
    (hgroups : ∀ simplified groups,
        simplify_jira_tickets jira = .ok simplified →
        jiraClientGroupsAux [] simplified = .ok groups →
        ((groups.map Prod.fst).map keyNorm).Nodup) :
    ∃ names : List String, (names.map normName).Nodup ∧
      (jd.map RagDoc.id = [] ∨
       jd.map RagDoc.id =
         (names.map (fun n => mkId (normName n ++ "_jira") "direct" ts))
           ++ [mkId "jira" "summary" ts]) := by
  unfold jiraPartDocs at h
  by_cases hj : jira = []
  · rw [if_pos hj] at h
    obtain rfl := (Except.ok.inj h).symm
    exact ⟨[], by simp, Or.inl rfl⟩
  · rw [if_neg hj] at h
    cases hs : simplify_jira_tickets jira with
    | error e => simp only [hs] at h; exact absurd h (by simp)
    | ok simplified =>
      simp only [hs] at h
      cases hg : jiraClientGroupsAux [] simplified with
      | error e => simp only [hg] at h; exact absurd h (by simp)
      | ok groups =>
        simp only [hg] at h
        cases hgd : jiraGroupDocs ts now groups with
        | error e => simp only [hgd] at h; exact absurd h (by simp)
        | ok gdocs =>
          simp only [hgd] at h
          cases hsd : jiraSummaryDoc groups simplified.length ts now with
          | error e => simp only [hsd] at h; exact absurd h (by simp)
          | ok sdoc =>
            simp only [hsd] at h
            obtain rfl := (Except.ok.inj h).symm
            obtain ⟨names, hk, hid⟩ := jiraGroupDocs_ids ts now groups gdocs hgd
            refine ⟨names, ?_, Or.inr ?_⟩
            · have heq : (groups.map Prod.fst).map keyNorm = names.map normName := by
                rw [hk, List.map_map]
                rfl
              have := hgroups simplified groups hs hg
              rwa [heq] at this
            · rw [List.map_append, hid, List.map_singleton,
                jiraSummaryDoc_id groups simplified.length ts now sdoc hsd]

theorem ids_nodup_core (pairs : List (String × String)) (names : List String)
    (ts : String) (withJira : Bool)
    (hpairs : pairs.Nodup)
    (htags : ∀ p ∈ pairs, p.2 ∈ sixTags)
    (hnames : (names.map normName).Nodup) :
    ((pairs.map (fun p => mkId p.1 p.2 ts)) ++
      ((if withJira then
          (names.map (fun n => mkId (normName n ++ "_jira") "direct" ts))
            ++ [mkId "jira" "summary" ts]
        else []) ++
        [mkId "representatives" "summary" ts,
         mkId "all_clients" "usage" ts,
         mkId "client" "list" ts])).Nodup := by
  have hsixU : ∀ t ∈ sixTags, '_' ∉ t.data := by decide
  have hsixNe : ∀ t ∈ sixTags,
      t ≠ "direct" ∧ t ≠ "summary" ∧ t ≠ "usage" ∧ t ≠ "list" := by decide
  have hdirU : '_' ∉ ("direct" : String).data := by decide
  have hsumU : '_' ∉ ("summary" : String).data := by decide
  have husgU : '_' ∉ ("usage" : String).data := by decide
  have hlstU : '_' ∉ ("list" : String).data := by decide
  rw [List.nodup_append]
  refine ⟨?_, ?_, ?_⟩
  · apply hpairs.map_on
    intro p hp q hq heq
    obtain ⟨hs, ht⟩ :=
      mkId_inj _ _ _ _ _ (hsixU _ (htags p hp)) (hsixU _ (htags q hq)) heq
    cases p; cases q; simp_all
  · rw [List.nodup_append]
    refine ⟨?_, ?_, ?_⟩
    · cases withJira with
      | false => simp
      | true =>
        simp only [if_true]
        rw [List.nodup_append]
        refine ⟨?_, by simp, ?_⟩
        · have hcomp : names.map (fun n => mkId (normName n ++ "_jira") "direct" ts)
              = (names.map normName).map (fun m => mkId (m ++ "_jira") "direct" ts) := by
            rw [List.map_map]
            rfl
          rw [hcomp]
          apply hnames.map
          intro m1 m2 h
          have h2 := (mkId_inj _ _ _ _ _ hdirU hdirU h).1
          exact string_append_cancel_right _ _ _ h2
        · intro x hx hx2
          obtain ⟨n, _, rfl⟩ := List.mem_map.1 hx
          rw [List.mem_singleton] at hx2
          exact absurd (mkId_inj _ _ _ _ _ hdirU hsumU hx2).2 (by decide)
    · refine List.nodup_cons.2 ⟨?_, List.nodup_cons.2 ⟨?_, List.nodup_singleton _⟩⟩
      · intro hmem
        rcases List.mem_cons.1 hmem with h | h
        · exact absurd (mkId_inj _ _ _ _ _ hsumU husgU h).2 (by decide)
        · rw [List.mem_singleton] at h
          exact absurd (mkId_inj _ _ _ _ _ hsumU hlstU h).2 (by decide)
      · intro hmem
        rw [List.mem_singleton] at hmem
        exact absurd (mkId_inj _ _ _ _ _ husgU hlstU hmem).2 (by decide)
    · intro x hx hx2
      cases withJira with
      | false => simp at hx
      | true =>
        simp only [if_true, List.mem_append] at hx
        rcases hx with hx | hx
        · obtain ⟨n, _, rfl⟩ := List.mem_map.1 hx
          rcases List.mem_cons.1 hx2 with h2 | h2
          · exact absurd (mkId_inj _ _ _ _ _ hdirU hsumU h2).2 (by decide)
          · rcases List.mem_cons.1 h2 with h3 | h3
            · exact absurd (mkId_inj _ _ _ _ _ hdirU husgU h3).2 (by decide)
            · rw [List.mem_singleton] at h3
              exact absurd (mkId_inj _ _ _ _ _ hdirU hlstU h3).2 (by decide)
        · rw [List.mem_singleton] at hx
          subst hx
          rcases List.mem_cons.1 hx2 with h2 | h2
          · exact absurd (mkId_inj _ _ _ _ _ hsumU hsumU h2).1 (by decide)
          · rcases List.mem_cons.1 h2 with h3 | h3
            · exact absurd (mkId_inj _ _ _ _ _ hsumU husgU h3).2 (by decide)
            · rw [List.mem_singleton] at h3
              exact absurd (mkId_inj _ _ _ _ _ hsumU hlstU h3).2 (by decide)
  · intro x hx hx2
    obtain ⟨p, hp, rfl⟩ := List.mem_map.1 hx
    have hpU := hsixU _ (htags p hp)
    have hpNe := hsixNe _ (htags p hp)
    rw [List.mem_append] at hx2
    rcases hx2 with hx2 | hx2
    · cases withJira with
      | false => simp at hx2
      | true =>
        simp only [if_true, List.mem_append] at hx2
        rcases hx2 with hx2 | hx2
        · obtain ⟨n, _, heq⟩ := List.mem_map.1 hx2
          exact absurd (mkId_inj _ _ _ _ _ hdirU hpU heq).2.symm hpNe.1
        · rw [List.mem_singleton] at hx2
          exact absurd (mkId_inj _ _ _ _ _ hpU hsumU hx2).2 hpNe.2.1
    · rcases List.mem_cons.1 hx2 with h2 | h2
      · exact absurd (mkId_inj _ _ _ _ _ hpU hsumU h2).2 hpNe.2.1
      · rcases List.mem_cons.1 h2 with h3 | h3
        · exact absurd (mkId_inj _ _ _ _ _ hpU husgU h3).2 hpNe.2.2.1
        · rw [List.mem_singleton] at h3
          exact absurd (mkId_inj _ _ _ _ _ hpU hlstU h3).2 hpNe.2.2.2

/-- C8 as stated is false: an oracle output containing the same tagged
section twice for the same client (both long enough to pass the length
filter) produces two chunks with the same id within one run. -/
theorem C8_counterexample :
    (parse_llm_text_to_documents
        "[CLIENT OVERVIEW: Foo]\nAAAAAAAAAAAAAAAAAAAAAAAAAAAAAAAAAAAAAAAAAAAAAAAAAAAAAAAAAAAA\n[CLIENT OVERVIEW: Foo]\nBBBBBBBBBBBBBBBBBBBBBBBBBBBBBBBBBBBBBBBBBBBBBBBBBBBBBBBBBBBB"
        [] [] "20260101_120000" "NOW").map (List.map RagDoc.id) =
      .ok ["foo_overview_20260101_120000", "foo_overview_20260101_120000",
           "representatives_summary_20260101_120000",
           "all_clients_usage_20260101_120000",
           "client_list_20260101_120000"] ∧
    ¬ (["foo_overview_20260101_120000", "foo_overview_20260101_120000",
        "representatives_summary_20260101_120000",
        "all_clients_usage_20260101_120000",
        "client_list_20260101_120000"] : List String).Nodup :=
  ⟨rfl, by decide⟩

/-- C8 amended: within one run the chunk ids are unique provided the
extracted tier-1 sections have pairwise distinct (normalised client
name, section type) pairs and the JIRA client groups have pairwise
distinct normalised names; an oracle output that repeats a tagged
section for one client violates the first condition and produces
colliding ids. -/
theorem C8_id_uniqueness (llm : String) (usage jira : List Json)
    (ts now : String) (docs : List RagDoc)
    (hok : parse_llm_text_to_documents llm usage jira ts now = .ok docs)
    (h1 : ¬ tier1Docs llm.data ts now = [])
    (hpairs : (tier1Pairs llm.data).Nodup)
    (hgroups : ∀ simplified groups,
        simplify_jira_tickets jira = .ok simplified →
        jiraClientGroupsAux [] simplified = .ok groups →
        ((groups.map Prod.fst).map keyNorm).Nodup) :
    (docs.map RagDoc.id).Nodup := by
  simp only [parse_llm_text_to_documents] at hok
  rw [if_pos h1] at hok
  cases hjp : jiraPartDocs jira ts now with
  | error e => simp only [hjp] at hok; exact absurd hok (by simp)
  | ok jd =>
    simp only [hjp] at hok
    cases hrd : repsDoc usage ts now with
    | error e => simp only [hrd] at hok; exact absurd hok (by simp)
    | ok rd =>
      simp only [hrd] at hok
      cases had : allClientsDoc usage ts now with
      | error e => simp only [had] at hok; exact absurd hok (by simp)
      | ok ad =>
        simp only [had] at hok
        cases hcd : clientListDoc usage ts now with
        | error e => simp only [hcd] at hok; exact absurd hok (by simp)
        | ok cd =>
          simp only [hcd] at hok
          obtain rfl := (Except.ok.inj hok).symm
          obtain ⟨names, hnames, hjd⟩ :=
            jiraPartDocs_ids jira ts now jd hjp hgroups
          rw [List.map_append, List.map_append, tier1Docs_ids]
          simp only [List.map_cons, List.map_nil]
          rw [repsDoc_id usage ts now rd hrd,
            allClientsDoc_id usage ts now ad had,
            clientListDoc_id usage ts now cd hcd]
          rcases hjd with hjd | hjd
          · rw [hjd]
            have core := ids_nodup_core (tier1Pairs llm.data) names ts false
              hpairs (fun p hp => tier1Pairs_tag llm.data p hp) hnames
            simpa [List.append_assoc] using core
          · rw [hjd]
            have core := ids_nodup_core (tier1Pairs llm.data) names ts true
              hpairs (fun p hp => tier1Pairs_tag llm.data p hp) hnames
            simpa [List.append_assoc] using core

/-- C8 witness at a concrete single-section output with no tickets. -/
theorem C8_witness :
    (parse_llm_text_to_documents
        "[WEEKLY USAGE: My Client]\nCCCCCCCCCCCCCCCCCCCCCCCCCCCCCCCCCCCCCCCCCCCCCCCCCCCCCCC"
        [] [] "TS0" "NOW0").map (List.map RagDoc.id) =
      .ok ["my_client_weekly_TS0", "representatives_summary_TS0",
           "all_clients_usage_TS0", "client_list_TS0"] ∧
    (["my_client_weekly_TS0", "representatives_summary_TS0",
      "all_clients_usage_TS0", "client_list_TS0"] : List String).Nodup := by
  refine ⟨rfl, ?_⟩
  have h := C8_id_uniqueness
    "[WEEKLY USAGE: My Client]\nCCCCCCCCCCCCCCCCCCCCCCCCCCCCCCCCCCCCCCCCCCCCCCCCCCCCCCC"
    [] [] "TS0" "NOW0"
    ((parse_llm_text_to_documents
        "[WEEKLY USAGE: My Client]\nCCCCCCCCCCCCCCCCCCCCCCCCCCCCCCCCCCCCCCCCCCCCCCCCCCCCCCC"
        [] [] "TS0" "NOW0").toOption.getD [])
    rfl (by decide) (by decide)
    (by
      intro s g hs hg
      obtain rfl := (Except.ok.inj hs).symm
      obtain rfl := (Except.ok.inj hg).symm
      exact List.nodup_nil)
  exact h

/-- C9: store_in_chromadb purges the whole prior collection before
inserting, so the post-run document count equals the size of the new
chunk set, never its sum with the prior count; on an empty store the
purge is skipped and the count is still the batch size. -/
theorem C9_full_replace (st documents : List RagDoc) :
    ((store_in_chromadb st documents).1).length = documents.length ∧
    (store_count st = 0 →
      store_in_chromadb st documents = add_documents st documents) := by
  constructor
  · unfold store_in_chromadb
    by_cases h : 0 < store_count st
    · rw [if_pos h]
      cases st with
      | nil => simp [store_count] at h
      | cons a as =>
        show (add_documents (delete_all (a :: as)) documents).1.length = _
        unfold delete_all add_documents
        by_cases hd : documents = [] <;> simp [hd]
    · rw [if_neg h]
      have hst : st = [] := by
        cases st with
        | nil => rfl
        | cons a as => exact absurd (by simp [store_count]) h
      subst hst
      unfold add_documents
      by_cases hd : documents = [] <;> simp [hd]
  · intro h0
    unfold store_in_chromadb
    rw [if_neg (by simp [h0])]

/-- C9 witness: a two-document store purged before a one-document
batch, and an empty store left untouched. -/
theorem C9_witness :
    ((store_in_chromadb
        [⟨"a", "x", []⟩, ⟨"b", "y", []⟩] [⟨"c", "z", []⟩]).1).length = 1 ∧
    store_in_chromadb ([] : List RagDoc) [⟨"c", "z", []⟩] =
      add_documents [] [⟨"c", "z", []⟩] :=
  ⟨(C9_full_replace [⟨"a", "x", []⟩, ⟨"b", "y", []⟩] [⟨"c", "z", []⟩]).1,
   (C9_full_replace [] [⟨"c", "z", []⟩]).2 rfl⟩

/-- A kept salvage candidate is the parse of its repaired match text and
is a dictionary containing a client_name key. -/
theorem salvageStep_sound (m : List Char) (x : Json)
    (h : salvageStep m = some x) :
    jsonLoadsChars (objFix m) = some x ∧
    ∃ kvs, x = Json.obj kvs ∧ kvs.any (fun p => p.1 = "client_name") = true := by
  unfold salvageStep at h
  cases hl : jsonLoadsChars (objFix m) with
  | none => rw [hl] at h; exact absurd h (by simp)
  | some v =>
    rw [hl] at h
    cases v with
    | obj kvs =>
      by_cases hk : kvs.any (fun p => p.1 = "client_name") = true
      · simp only [hk, if_true] at h
        obtain rfl := Option.some.inj h
        exact ⟨rfl, kvs, rfl, hk⟩
      · simp only [Bool.not_eq_true] at hk
        simp [hk] at h
    | null => exact absurd h (by simp)
    | bool b => exact absurd h (by simp)
    | num s => exact absurd h (by simp)
    | str s => exact absurd h (by simp)
    | arr xs => exact absurd h (by simp)

/-- C1: if the fence-stripped response has a bracket span and that span
parses directly as a JSON array, parse_llm_response returns exactly the
parsed array, with no repair applied and no debug dump. -/
theorem C1_state_a_direct (r : String) (span : List Char) (xs : List Json)
    (hspan : spanOf (stripFences r.data) = some span)
    (hparse : jsonLoadsChars span = some (Json.arr xs)) :
    parse_llm_response r = (Json.arr xs, false) := by
  unfold parse_llm_response
  simp only [hspan, hparse]

/-- C1 witness at a concrete fenced response. -/
theorem C1_witness :
    spanOf (stripFences ("```json\n[1, 2]\n```").data) = some ("[1, 2]").data ∧
    jsonLoadsChars ("[1, 2]").data = some (Json.arr [Json.num "1", Json.num "2"]) ∧
    parse_llm_response "```json\n[1, 2]\n```" =
      (Json.arr [Json.num "1", Json.num "2"], false) :=
  ⟨rfl, rfl, C1_state_a_direct _ _ _ rfl rfl⟩

/-- C2 as stated is false: this span fails direct parsing only because
of a trailing comma before the final closing bracket (deleting that
comma yields a valid parse), yet the State-B regex repair also rewrites
the inside of a string literal, so the repaired parse differs from the
manually-corrected parse. -/
theorem C2_counterexample :
    jsonLoads "[\"a ,]\",]" = none ∧
    jsonLoads "[\"a ,]\"]" = some (Json.arr [Json.str "a ,]"]) ∧
    spanOf (stripFences ("[\"a ,]\",]").data) = some ("[\"a ,]\",]").data ∧
    parse_llm_response "[\"a ,]\",]" = (Json.arr [Json.str "a ]"], false) ∧
    Json.arr [Json.str "a ]"] ≠ Json.arr [Json.str "a ,]"] :=
  ⟨rfl, rfl, rfl, rfl, by decide⟩

/-- C2 amended: if the span fails direct parsing and the State-B
repaired text parses, parse_llm_response returns exactly the parse of
the repaired text (which equals the manually-corrected parse whenever
the repair regexes do not touch string-literal contents). -/
theorem C2_state_b_repair (r : String) (span : List Char) (v : Json)
    (hspan : spanOf (stripFences r.data) = some span)
    (hA : jsonLoadsChars span = none)
    (hB : jsonLoadsChars (repairB span) = some v) :
    parse_llm_response r = (v, false) := by
  unfold parse_llm_response
  simp only [hspan, hA, hB]

/-- C2 witness at a concrete response with a trailing comma inside an
object. -/
theorem C2_witness :
    spanOf (stripFences ("[\x7b\"a\":1,\x7d]").data) =
      some ("[\x7b\"a\":1,\x7d]").data ∧
    jsonLoadsChars ("[\x7b\"a\":1,\x7d]").data = none ∧
    jsonLoadsChars (repairB ("[\x7b\"a\":1,\x7d]").data) =
      some (Json.arr [Json.obj [("a", Json.num "1")]]) ∧
    parse_llm_response "[\x7b\"a\":1,\x7d]" =
      (Json.arr [Json.obj [("a", Json.num "1")]], false) :=
  ⟨rfl, rfl, rfl, C2_state_b_repair _ _ _ rfl rfl rfl⟩

/-- C3 as stated is false: this span is globally malformed and embeds a
syntactically valid object containing client_name, but that object nests
braces three deep, so the balanced-brace pattern (which only matches
nesting depth at most two) never finds it and State C recovers nothing:
the function falls through to the debug dump and the empty list. -/
theorem C3_counterexample :
    jsonLoadsChars
      ("[ \x7b\"client_name\": \"A\", \"d\": \x7b\"e\": \x7b\"f\": 1\x7d\x7d\x7d oops ]").data
      = none ∧
    jsonLoadsChars
      (repairB ("[ \x7b\"client_name\": \"A\", \"d\": \x7b\"e\": \x7b\"f\": 1\x7d\x7d\x7d oops ]").data)
      = none ∧
    jsonLoads "\x7b\"client_name\": \"A\", \"d\": \x7b\"e\": \x7b\"f\": 1\x7d\x7d\x7d" =
      some (Json.obj [("client_name", Json.str "A"),
        ("d", Json.obj [("e", Json.obj [("f", Json.num "1")])])]) ∧
    ("\x7b\"client_name\": \"A\", \"d\": \x7b\"e\": \x7b\"f\": 1\x7d\x7d\x7d").data <:+:
      ("[ \x7b\"client_name\": \"A\", \"d\": \x7b\"e\": \x7b\"f\": 1\x7d\x7d\x7d oops ]").data ∧
    parse_llm_response
      "[ \x7b\"client_name\": \"A\", \"d\": \x7b\"e\": \x7b\"f\": 1\x7d\x7d\x7d oops ]" =
      (Json.arr [], true) :=
  ⟨rfl, rfl, rfl, ⟨"[ ".data, " oops ]".data, by decide⟩, rfl⟩

/-- C3 amended: when both parses fail and the salvage loop finds at
least one candidate, parse_llm_response returns exactly the list of
candidates matched by the depth-at-most-two balanced-brace scan that,
after the per-object trailing-comma fix, parse as dictionaries
containing client_name, and nothing else. -/
theorem C3_state_c_salvage (r : String) (span : List Char) (o : Json) (objs : List Json)
    (hspan : spanOf (stripFences r.data) = some span)
    (hA : jsonLoadsChars span = none)
    (hB : jsonLoadsChars (repairB span) = none)
    (hC : salvageObjects span = o :: objs) :
    parse_llm_response r = (Json.arr (o :: objs), false) ∧
    ∀ x ∈ o :: objs, ∃ m ∈ braceMatches span.length span,
      jsonLoadsChars (objFix m) = some x ∧
      ∃ kvs, x = Json.obj kvs ∧ kvs.any (fun p => p.1 = "client_name") = true := by
  constructor
  · unfold parse_llm_response
    simp only [hspan, hA, hB, hC]
  · intro x hx
    rw [← hC] at hx
    unfold salvageObjects at hx
    rw [List.mem_filterMap] at hx
    obtain ⟨m, hm, hf⟩ := hx
    exact ⟨m, hm, salvageStep_sound m x hf⟩

/-- C3 witness at a concrete malformed response with one salvageable
object. -/
theorem C3_witness :
    jsonLoadsChars ("[ \x7b\"client_name\": \"A\",\x7d, \x7b\"x\": \x7d]").data = none ∧
    jsonLoadsChars (repairB ("[ \x7b\"client_name\": \"A\",\x7d, \x7b\"x\": \x7d]").data) = none ∧
    salvageObjects ("[ \x7b\"client_name\": \"A\",\x7d, \x7b\"x\": \x7d]").data =
      [Json.obj [("client_name", Json.str "A")]] ∧
    parse_llm_response "[ \x7b\"client_name\": \"A\",\x7d, \x7b\"x\": \x7d]" =
      (Json.arr [Json.obj [("client_name", Json.str "A")]], false) :=
  ⟨rfl, rfl, rfl,
    (C3_state_c_salvage "[ \x7b\"client_name\": \"A\",\x7d, \x7b\"x\": \x7d]"
      ("[ \x7b\"client_name\": \"A\",\x7d, \x7b\"x\": \x7d]").data
      (Json.obj [("client_name", Json.str "A")]) [] rfl rfl rfl rfl).1⟩

/-- C4 as stated is false: on this response no parsing state yields a
record (there is no bracket span at all), yet parse_llm_response does
not persist a debug artifact and does not return the empty list - the
final whole-content parse succeeds with a bare string - and the risk
classifier then raises AttributeError while filtering risky clients
instead of returning an error entry. -/
theorem C4_counterexample :
    statesAllFail "\"x\"" = true ∧
    parse_llm_response "\"x\"" = (Json.str "x", false) ∧
    Json.str "x" ≠ Json.arr [] ∧
    analysis_agent_post "\"x\"" = .error .attributeError :=
  ⟨rfl, rfl, by decide, rfl⟩

/-- C4 amended: when no parsing state succeeds and the final
whole-content parse also fails, parse_llm_response persists the raw
response to the debug artifact and returns the empty list, and
analysis_agent returns empty analysis_results and risky_clients plus
one appended error entry, raising nothing. -/
theorem C4_terminal_failure (r : String)
    (hstates : statesAllFail r = true)
    (hwhole : jsonLoadsChars (stripFences r.data) = none) :
    parse_llm_response r = (Json.arr [], true) ∧
    analysis_agent_post r =
      .ok ⟨Json.arr [], [], r, some ["Failed to parse analysis response"]⟩ := by
  have hp : parse_llm_response r = (Json.arr [], true) := by
    unfold statesAllFail at hstates
    unfold parse_llm_response
    cases hs : spanOf (stripFences r.data) with
    | none => simp only [hs, hwhole]
    | some span =>
      rw [hs] at hstates
      simp only [Bool.and_eq_true, Option.isNone_iff_eq_none,
        List.isEmpty_iff] at hstates
      obtain ⟨⟨hA, hB⟩, hC⟩ := hstates
      simp only [hs, hA, hB, hC, hwhole]
  refine ⟨hp, ?_⟩
  unfold analysis_agent_post
  rw [hp]
  simp [pyTruthy]

/-- The lowercased risk_factor of a parsed record, when the record is a
dictionary whose risk_factor entry (defaulted to the empty string) is a
string; none when the risky-clients comprehension would raise on it. -/
def riskLower (c : Json) : Option String :=
  match pyGetMethod c "risk_factor" (Json.str "") with
  | .ok v =>
    match pyLower v with
    | .ok s => some s
    | .error _ => none
  | .error _ => none

/-- A record the risky-clients comprehension keeps: lowercased
risk_factor high or medium. -/
def isRisky (c : Json) : Bool :=
  match riskLower c with
  | some l => l = "high" || l = "medium"
  | none => false

/-- A record whose lowercased risk_factor is low. -/
def isLowRisk (c : Json) : Bool := riskLower c = some "low"

/-- A record whose lowercased risk_factor is neither high, medium nor
low (missing risk_factor lowers the empty string, landing here). -/
def isUnclassified (c : Json) : Bool :=
  match riskLower c with
  | some l => ¬ (l = "high" || l = "medium" || l = "low")
  | none => false

/-- C5: over any record list whose members are dictionaries with a
string (or absent) risk_factor, the risky-clients comprehension of
analysis_agent returns exactly the records whose lowercased risk_factor
is high or medium, and the risky, low and unclassified counts add up to
the total count. -/
theorem C5_risk_filter (xs : List Json)
    (h : ∀ c ∈ xs, (riskLower c).isSome) :
    riskyFilterList xs = .ok (xs.filter isRisky) ∧
    (xs.filter isRisky).length + (xs.filter isLowRisk).length
      + (xs.filter isUnclassified).length = xs.length := by
  induction xs with
  | nil => simp [riskyFilterList]
  | cons c cs ih =>
    have hc := h c (by simp)
    have hcs : ∀ x ∈ cs, (riskLower x).isSome := fun x hx => h x (by simp [hx])
    obtain ⟨ih1, ih2⟩ := ih hcs
    cases hrl : riskLower c with
    | none => rw [hrl] at hc; exact absurd hc (by simp)
    | some l =>
      cases hg : pyGetMethod c "risk_factor" (Json.str "") with
      | error e => simp [riskLower, hg] at hrl
      | ok v =>
        cases hl : pyLower v with
        | error e => simp [riskLower, hg, hl] at hrl
        | ok s =>
          have hsl : s = l := by
            simp only [riskLower, hg, hl, Option.some.injEq] at hrl
            exact hrl
          subst hsl
          have hfilter :
              riskyFilterList (c :: cs) = .ok ((c :: cs).filter isRisky) := by
            simp only [riskyFilterList, hg, hl, ih1]
            simp only [List.filter_cons, isRisky, hrl]
            by_cases hr : s = "high" ∨ s = "medium"
            · rcases hr with hr | hr <;> simp [hr]
            · push_neg at hr
              obtain ⟨h1, h2⟩ := hr
              simp [h1, h2]
          refine ⟨hfilter, ?_⟩
          simp only [List.filter_cons, isRisky, isLowRisk, isUnclassified, hrl]
          by_cases h1 : s = "high"
          · simp [h1]; omega
          · by_cases h2 : s = "medium"
            · simp [h2]; omega
            · by_cases h3 : s = "low"
              · simp [h1, h2, h3]; omega
              · simp [h1, h2, h3]; omega

/-- C5 witness at a concrete three-record list with one risky, one low
and one unclassified record. -/
theorem C5_witness :
    (∀ c ∈ [Json.obj [("client_name", Json.str "A"), ("risk_factor", Json.str "High")],
            Json.obj [("risk_factor", Json.str "low")],
            Json.obj []], (riskLower c).isSome) ∧
    riskyFilterList
      [Json.obj [("client_name", Json.str "A"), ("risk_factor", Json.str "High")],
       Json.obj [("risk_factor", Json.str "low")],
       Json.obj []] =
      .ok [Json.obj [("client_name", Json.str "A"), ("risk_factor", Json.str "High")]] ∧
    (1 + 1 + 1 = 3) :=
  ⟨by decide,
   by
    have h := (C5_risk_filter
      [Json.obj [("client_name", Json.str "A"), ("risk_factor", Json.str "High")],
       Json.obj [("risk_factor", Json.str "low")],
       Json.obj []] (by decide)).1
    rw [h]; rfl,
   rfl⟩

/-- C4 witness at a concrete unparseable response. -/
theorem C4_witness :
    statesAllFail "no json at all" = true ∧
    jsonLoadsChars (stripFences ("no json at all").data) = none ∧
    parse_llm_response "no json at all" = (Json.arr [], true) ∧
    analysis_agent_post "no json at all" =
      .ok ⟨Json.arr [], [], "no json at all",
        some ["Failed to parse analysis response"]⟩ :=
  ⟨rfl, rfl, (C4_terminal_failure "no json at all" rfl rfl).1,
    (C4_terminal_failure "no json at all" rfl rfl).2⟩

end Retention
